import Mathlib

/-!
Verification of the multi-source harvesting core of the weekly-digest
repository (src/src/scrapers/blog_scraper.py, arxiv_scraper.py,
biorxiv_scraper.py).  The Python functions are shallowly embedded as
executable Lean definitions: datetimes are modelled at day precision,
BeautifulSoup elements are modelled by structures holding exactly the
fields each scraper reads, and the strptime / re parsing cascades are
reimplemented character by character following the CPython matching
semantics for the formats the code uses.
-/

namespace Digest

/-- Calendar date at day precision.  Python datetime values are modelled by
their (year, month, day) triple; time of day plays no role in any of the
verified properties and is omitted. -/
structure Date where
  year : Nat
  month : Nat
  day : Nat
deriving DecidableEq, Repr

/-- Python datetime comparison, lexicographic on (year, month, day). -/
def dateLeb (a b : Date) : Bool :=
  decide (a.year < b.year) ||
    (decide (a.year = b.year) &&
      (decide (a.month < b.month) ||
        (decide (a.month = b.month) && decide (a.day ≤ b.day))))

/-- Strict datetime comparison, lexicographic on (year, month, day). -/
def dateLtb (a b : Date) : Bool :=
  decide (a.year < b.year) ||
    (decide (a.year = b.year) &&
      (decide (a.month < b.month) ||
        (decide (a.month = b.month) && decide (a.day < b.day))))

/-- Gregorian leap-year rule, as used by the Python datetime module. -/
def isLeap (y : Nat) : Bool :=
  y % 4 == 0 && (y % 100 != 0 || y % 400 == 0)

/-- Number of days in a month of a given year (Gregorian calendar). -/
def daysInMonth (y m : Nat) : Nat :=
  if m = 2 then (if isLeap y then 29 else 28)
  else if m = 4 ∨ m = 6 ∨ m = 9 ∨ m = 11 then 30
  else 31

/-- Validity of a date under the constraints enforced by the Python
datetime constructor (year 1..9999, month 1..12, day within the month). -/
def validDate (d : Date) : Bool :=
  decide (1 ≤ d.year) && decide (d.year ≤ 9999) &&
    decide (1 ≤ d.month) && decide (d.month ≤ 12) &&
    decide (1 ≤ d.day) && decide (d.day ≤ daysInMonth d.year d.month)

/-- Model of the Python datetime constructor: a valid triple yields a date,
an invalid one raises ValueError, modelled as none. -/
def mkDate? (y m d : Nat) : Option Date :=
  let c : Date := { year := y, month := m, day := d }
  if validDate c then some c else none

/-- Successor day in the Gregorian calendar. -/
def nextDay (d : Date) : Date :=
  if d.day < daysInMonth d.year d.month then { d with day := d.day + 1 }
  else if d.month < 12 then { year := d.year, month := d.month + 1, day := 1 }
  else { year := d.year + 1, month := 1, day := 1 }

/-- Predecessor day in the Gregorian calendar. -/
def prevDay (d : Date) : Date :=
  if 1 < d.day then { d with day := d.day - 1 }
  else if 1 < d.month then
    { year := d.year, month := d.month - 1, day := daysInMonth d.year (d.month - 1) }
  else { year := d.year - 1, month := 12, day := 31 }

/-- Model of adding a timedelta of n days to a datetime. -/
def addDays : Nat → Date → Date
  | 0, d => d
  | n + 1, d => addDays n (nextDay d)

/-- Model of subtracting a timedelta of n days from a datetime. -/
def subDays : Nat → Date → Date
  | 0, d => d
  | n + 1, d => subDays n (prevDay d)

/-- Model of datetime.replace with day set to 1. -/
def replaceDay1 (d : Date) : Date :=
  { year := d.year, month := d.month, day := 1 }

/-- ASCII whitespace set, the characters matched by the Python regex class
for whitespace and stripped by str.strip (the site text handled by the
scrapers is ASCII). -/
def pySpace (c : Char) : Bool :=
  c = ' ' || c = '\t' || c = '\n' || c = '\r' || c = '\x0b' || c = '\x0c'

/-- Model of the Python str.strip method: remove whitespace from both
ends. -/
def pyStripL (l : List Char) : List Char :=
  List.rdropWhile pySpace (l.dropWhile pySpace)

/-- String-level wrapper for pyStripL. -/
def pyStrip (s : String) : String :=
  String.mk (pyStripL s.data)

/-- ASCII decimal digit test, the regex digit class for the inputs at hand. -/
def isDigitChar (c : Char) : Bool :=
  decide ('0' ≤ c) && decide (c ≤ '9')

/-- ASCII letter test, the regex class of latin letters. -/
def isAlphaChar (c : Char) : Bool :=
  (decide ('A' ≤ c) && decide (c ≤ 'Z')) || (decide ('a' ≤ c) && decide (c ≤ 'z'))

/-- Numeric value of a digit character. -/
def digVal (c : Char) : Nat := c.toNat - 48

/-- Model of the Python int conversion applied to a captured digit string. -/
def natFromDigits (l : List Char) : Nat :=
  l.foldl (fun a c => a * 10 + digVal c) 0

/-- Character for a single decimal digit. -/
def digitChar (n : Nat) : Char := Char.ofNat (48 + n % 10)

/-- Two-digit zero-padded decimal rendering (strftime month and day
fields). -/
def pad2 (n : Nat) : List Char := [digitChar (n / 10), digitChar n]

/-- Four-digit zero-padded decimal rendering (strftime year field for the
years that occur here). -/
def pad4 (n : Nat) : List Char :=
  [digitChar (n / 1000), digitChar (n / 100), digitChar (n / 10), digitChar n]

/-- Model of strftime with format YYYY-MM-DD, the only output format the
scrapers use. -/
def isoOfDate (d : Date) : String :=
  String.mk (pad4 d.year ++ '-' :: pad2 d.month ++ '-' :: pad2 d.day)

/-- Lower-casing of an ASCII letter by code point, as the Python lower
method does on the inputs at hand. -/
def lowerChar (c : Char) : Char :=
  if decide ('A' ≤ c) && decide (c ≤ 'Z') then Char.ofNat (c.toNat + 32) else c

/-- Model of the Python str.lower method. -/
def lowerStr (s : String) : String := String.mk (s.data.map lowerChar)

/-- List-level prefix test used to model str.startswith and substring
search. -/
def isPrefixL : List Char → List Char → Bool
  | [], _ => true
  | _ :: _, [] => false
  | a :: as, b :: bs => a = b && isPrefixL as bs

/-- Model of the Python in operator on strings (substring containment). -/
def containsSubL (hay : List Char) (needle : List Char) : Bool :=
  match hay with
  | [] => isPrefixL needle []
  | _ :: t => isPrefixL needle hay || containsSubL t needle

/-- String-level substring containment (the Python in operator). -/
def containsSub (hay needle : String) : Bool :=
  containsSubL hay.data needle.data

/-- Model of str.startswith. -/
def strStartsWith (s pre : String) : Bool :=
  isPrefixL pre.data s.data

/-- Character membership in a string (the Python in operator on a single
character). -/
def containsChar (s : String) (c : Char) : Bool :=
  s.data.contains c

/-- Model of str.split at the first occurrence of a character, keeping the
part before it (split followed by indexing with 0). -/
def takeBeforeChar (s : String) (c : Char) : String :=
  String.mk (s.data.takeWhile (fun x => !(x = c)))

/-! Backtracking parsers modelling the regexes CPython compiles for the
strptime directives the scrapers use.  A parser returns the list of
candidate (value, rest) pairs in the order the regex engine would try
them; the regex outcome is the head of the list. -/

/-- Parser type: candidate results in backtracking order. -/
def Parse (α : Type) : Type := List Char → List (α × List Char)

/-- Map over parse results. -/
def pMap (f : α → β) (p : Parse α) : Parse β :=
  fun cs => (p cs).map (fun r => (f r.1, r.2))

/-- Sequencing, enumerating candidates in lexicographic backtracking
order. -/
def pSeq (p : Parse α) (q : Parse β) : Parse (α × β) :=
  fun cs => (p cs).flatMap (fun r => (q r.2).map (fun s => ((r.1, s.1), s.2)))

/-- Sequencing keeping the left value. -/
def pLeft (p : Parse α) (q : Parse β) : Parse α := pMap Prod.fst (pSeq p q)

/-- Sequencing keeping the right value. -/
def pRight (p : Parse α) (q : Parse β) : Parse β := pMap Prod.snd (pSeq p q)

/-- Literal character (a non-whitespace literal in a strptime format). -/
def pLit (c : Char) : Parse Unit := fun cs =>
  match cs with
  | c2 :: rest => if c2 = c then [((), rest)] else []
  | [] => []

/-- Whitespace in a strptime format matches one or more whitespace
characters.  The tokens that follow whitespace in the formats at hand
(digits, month names) are disjoint from whitespace, so only the maximal
munch can complete the pattern and it is the single candidate kept. -/
def pWS : Parse Unit := fun cs =>
  match cs with
  | c :: _ => if pySpace c then [((), cs.dropWhile pySpace)] else []
  | [] => []

/-- Exactly n decimal digits, converted by the Python int conversion. -/
def pDigitsExact (n : Nat) : Parse Nat := fun cs =>
  let pre := cs.take n
  if pre.length = n && pre.all isDigitChar then [(natFromDigits pre, cs.drop n)]
  else []

/-- The four-digit year directive of strptime. -/
def pYear4 : Parse Nat := pDigitsExact 4

/-- The two-digit year directive of strptime, with the CPython century
mapping (0-68 to 2000s, 69-99 to 1900s). -/
def pYear2 : Parse Nat :=
  pMap (fun v => if v ≤ 68 then 2000 + v else 1900 + v) (pDigitsExact 2)

/-- The numeric month directive: the CPython regex alternation
1[0-2] then 0[1-9] then [1-9], candidates in that order. -/
def pMonthNum : Parse Nat := fun cs =>
  match cs with
  | c1 :: c2 :: rest =>
    (if c1 = '1' && (c2 = '0' || c2 = '1' || c2 = '2') then
      [(natFromDigits [c1, c2], rest)] else []) ++
    (if c1 = '0' && isDigitChar c2 && !(c2 = '0') then [(digVal c2, rest)] else []) ++
    (if isDigitChar c1 && !(c1 = '0') then [(digVal c1, c2 :: rest)] else [])
  | [c1] => if isDigitChar c1 && !(c1 = '0') then [(digVal c1, [])] else []
  | [] => []

/-- The numeric day directive: the CPython regex alternation
3[01] then [12]d then 0[1-9] then [1-9], candidates in that order. -/
def pDayNum : Parse Nat := fun cs =>
  match cs with
  | c1 :: c2 :: rest =>
    (if c1 = '3' && (c2 = '0' || c2 = '1') then [(natFromDigits [c1, c2], rest)] else []) ++
    (if (c1 = '1' || c1 = '2') && isDigitChar c2 then [(natFromDigits [c1, c2], rest)] else []) ++
    (if c1 = '0' && isDigitChar c2 && !(c2 = '0') then [(digVal c2, rest)] else []) ++
    (if isDigitChar c1 && !(c1 = '0') then [(digVal c1, c2 :: rest)] else [])
  | [c1] => if isDigitChar c1 && !(c1 = '0') then [(digVal c1, [])] else []
  | [] => []

/-- Full English month names with their numbers, lower-cased (strptime
matches them case-insensitively in the C locale). -/
def monthNamesFull : List (String × Nat) :=
  [("january", 1), ("february", 2), ("march", 3), ("april", 4), ("may", 5),
   ("june", 6), ("july", 7), ("august", 8), ("september", 9), ("october", 10),
   ("november", 11), ("december", 12)]

/-- Abbreviated English month names with their numbers, lower-cased. -/
def monthNamesAbbr : List (String × Nat) :=
  [("jan", 1), ("feb", 2), ("mar", 3), ("apr", 4), ("may", 5), ("jun", 6),
   ("jul", 7), ("aug", 8), ("sep", 9), ("oct", 10), ("nov", 11), ("dec", 12)]

/-- Case-insensitive prefix stripping against a lower-cased pattern. -/
def stripCIPrefix : List Char → List Char → Option (List Char)
  | [], cs => some cs
  | _ :: _, [] => none
  | n :: ns, c :: cs => if lowerChar c = n then stripCIPrefix ns cs else none

/-- Month-name directive: candidates are the table entries whose name is a
case-insensitive prefix of the input (the tables are prefix-free, so at
most one matches). -/
def pMonthName (table : List (String × Nat)) : Parse Nat := fun cs =>
  table.foldr
    (fun e acc =>
      match stripCIPrefix e.1.data cs with
      | some rest => (e.2, rest) :: acc
      | none => acc)
    []

/-- The full month-name directive. -/
def pMonthFull : Parse Nat := pMonthName monthNamesFull

/-- The abbreviated month-name directive. -/
def pMonthAbbr : Parse Nat := pMonthName monthNamesAbbr

/-- Model of datetime.strptime for a format yielding (year, month, day):
the regex engine commits to the first candidate completing the pattern,
strptime then requires full consumption and a calendrically valid date,
raising ValueError (none) otherwise. -/
def runStrptime (p : Parse (Nat × Nat × Nat)) (s : String) : Option Date :=
  match p s.data with
  | [] => none
  | (v, rest) :: _ => if rest = [] then mkDate? v.1 v.2.1 v.2.2 else none

/-- Format YYYY-MM-DD. -/
def fmtISO : Parse (Nat × Nat × Nat) :=
  pSeq (pLeft pYear4 (pLit '-')) (pSeq (pLeft pMonthNum (pLit '-')) pDayNum)

/-- Format YYYY/MM/DD. -/
def fmtSlashYMD : Parse (Nat × Nat × Nat) :=
  pSeq (pLeft pYear4 (pLit '/')) (pSeq (pLeft pMonthNum (pLit '/')) pDayNum)

/-- Format with full month name, day, comma, year (Month DD, YYYY). -/
def fmtBdY : Parse (Nat × Nat × Nat) :=
  pMap (fun x => (x.2.2, x.1, x.2.1))
    (pSeq (pLeft pMonthFull pWS) (pSeq (pLeft pDayNum (pLit ',')) (pRight pWS pYear4)))

/-- Format with abbreviated month name, day, comma, year (Mon DD, YYYY). -/
def fmtbdY : Parse (Nat × Nat × Nat) :=
  pMap (fun x => (x.2.2, x.1, x.2.1))
    (pSeq (pLeft pMonthAbbr pWS) (pSeq (pLeft pDayNum (pLit ',')) (pRight pWS pYear4)))

/-- Format day, full month name, year (DD Month YYYY). -/
def fmtdBY : Parse (Nat × Nat × Nat) :=
  pMap (fun x => (x.2.2, x.2.1, x.1))
    (pSeq (pLeft pDayNum pWS) (pSeq (pLeft pMonthFull pWS) pYear4))

/-- Format day, abbreviated month name, two-digit year (DD Mon YY). -/
def fmtdby : Parse (Nat × Nat × Nat) :=
  pMap (fun x => (x.2.2, x.2.1, x.1))
    (pSeq (pLeft pDayNum pWS) (pSeq (pLeft pMonthAbbr pWS) pYear2))

/-- Format MM/DD/YYYY. -/
def fmtmdY : Parse (Nat × Nat × Nat) :=
  pMap (fun x => (x.2.2, x.1, x.2.1))
    (pSeq (pLeft pMonthNum (pLit '/')) (pSeq (pLeft pDayNum (pLit '/')) pYear4))

/-- Model of the loop trying an ordered list of strptime formats and
keeping the first success. -/
def firstFormat (fmts : List (Parse (Nat × Nat × Nat))) (s : String) : Option Date :=
  match fmts with
  | [] => none
  | f :: rest =>
    match runStrptime f s with
    | some d => some d
    | none => firstFormat rest s

/-- Model of strptime with format Month YYYY (full month name, one
whitespace run, four-digit year), as used by the circuits scraper;
the parsed datetime defaults to day 1 of the month. -/
def runStrptimeBY (s : String) : Option Date :=
  match (pSeq (pLeft pMonthFull pWS) pYear4) s.data with
  | [] => none
  | (v, rest) :: _ => if rest = [] then mkDate? v.2 v.1 1 else none

/-- Month-name resolution in the recency filter.  The code builds the
string name 1, year and parses it with Month DD, YYYY, then with the
abbreviated-month variant; since the appended text always matches, this
succeeds exactly when the captured letters equal a full or abbreviated
month name case-insensitively. -/
def monthNumOfName (name : String) : Option Nat :=
  let l := String.mk (name.data.map lowerChar)
  match monthNamesFull.find? (fun e => e.1 = l) with
  | some e => some e.2
  | none => (monthNamesAbbr.find? (fun e => e.1 = l)).map (fun e => e.2)

/-- End-of-string anchor of the Python regexes: end of input or a single
final newline. -/
def atDollar (cs : List Char) : Bool :=
  cs = [] || cs = ['\n']

/-- Anchored match of the first month-year pattern of the recency filter:
letters, whitespace, four digits, end.  Returns the captured letter group
and the year. -/
def matchMonthYear1 (s : String) : Option (String × Nat) :=
  let cs := s.data
  let letters := cs.takeWhile isAlphaChar
  if letters = [] then none
  else
    let r1 := cs.dropWhile isAlphaChar
    if (r1.takeWhile pySpace) = [] then none
    else
      let r2 := r1.dropWhile pySpace
      let ds := r2.take 4
      if ds.length = 4 && ds.all isDigitChar && atDollar (r2.drop 4) then
        some (String.mk letters, natFromDigits ds)
      else none

/-- Anchored match of the second month-year pattern of the recency filter:
four digits, a dash, one or two digits, end.  Returns (year, month). -/
def matchMonthYear2 (s : String) : Option (Nat × Nat) :=
  let cs := s.data
  let ds := cs.take 4
  if ds.length = 4 && ds.all isDigitChar then
    match cs.drop 4 with
    | '-' :: r =>
      let ms := r.takeWhile isDigitChar
      if (ms.length = 1 || ms.length = 2) && atDollar (r.drop ms.length) then
        some (natFromDigits ds, natFromDigits ms)
      else none
    | _ => none
  else none

/-- Anchored match of the circuits month-year regex: letters, a single
space, four digits, end. -/
def circuitsMonthYearMatch (s : String) : Bool :=
  let cs := s.data
  if (cs.takeWhile isAlphaChar) = [] then false
  else
    match cs.dropWhile isAlphaChar with
    | ' ' :: r2 =>
      let ds := r2.take 4
      ds.length = 4 && ds.all isDigitChar && atDollar (r2.drop 4)
    | _ => false

/-- Optional dash-or-slash separator of the extraction regex; the greedy
question mark tries the consuming candidate first. -/
def pSepOpt : Parse Unit := fun cs =>
  match cs with
  | c :: rest => if c = '-' || c = '/' then [((), rest), ((), cs)] else [((), cs)]
  | [] => [((), [])]

/-- One or two digits, greedy (two first). -/
def pDig12 : Parse Nat := fun cs =>
  match cs with
  | c1 :: c2 :: rest =>
    (if isDigitChar c1 && isDigitChar c2 then [(natFromDigits [c1, c2], rest)] else []) ++
    (if isDigitChar c1 then [(digVal c1, c2 :: rest)] else [])
  | [c1] => if isDigitChar c1 then [(digVal c1, [])] else []
  | [] => []

/-- The unanchored extraction pattern of the recency filter: four digits,
optional separator, one or two digits, optional separator, one or two
digits. -/
def ymdSearchPat : Parse (Nat × Nat × Nat) :=
  pSeq pYear4 (pSeq (pRight pSepOpt pDig12) (pRight pSepOpt pDig12))

/-- Leftmost-match search of the extraction pattern, as re.search does. -/
def searchYMDAux : List Char → Option (Nat × Nat × Nat)
  | [] =>
    match ymdSearchPat [] with
    | r :: _ => some r.1
    | [] => none
  | c :: t =>
    match ymdSearchPat (c :: t) with
    | r :: _ => some r.1
    | [] => searchYMDAux t

/-- String-level wrapper for the extraction search. -/
def searchYMD (s : String) : Option (Nat × Nat × Nat) := searchYMDAux s.data

/-- Lexicographic order on (year, month) pairs, the Python tuple
comparison used by the recency filter. -/
def ymLeb (a b : Nat × Nat) : Bool :=
  decide (a.1 < b.1) || (decide (a.1 = b.1) && decide (a.2 ≤ b.2))

/-- Month-window acceptance of the recency filter for a month-year entry:
membership in the previous/current/next month list built around the end
date, or lexicographic membership in the month range of the window.
Years of Python datetimes are at least 1, so the natural subtraction in
the January case agrees with the Python integer arithmetic. -/
def monthAccept (entryYear entryMonth : Nat) (start_date end_date : Date) : Bool :=
  let acceptable : List (Nat × Nat) :=
    if end_date.month = 1 then
      [(end_date.year - 1, 12), (end_date.year, 1), (end_date.year, 2)]
    else if end_date.month = 12 then
      [(end_date.year, 11), (end_date.year, 12), (end_date.year + 1, 1)]
    else
      [(end_date.year, end_date.month - 1), (end_date.year, end_date.month),
       (end_date.year, end_date.month + 1)]
  if (entryYear, entryMonth) ∈ acceptable then true
  else
    ymLeb (start_date.year, start_date.month) (entryYear, entryMonth) &&
      ymLeb (entryYear, entryMonth) (end_date.year, end_date.month)

/-- Model of is_recent_publication from the blog scraper: month-year
classification first (with the month-name resolution failing for year 0,
where the datetime constructor inside strptime raises), then the ordered
concrete-format list, then the extraction regex, with the documented
returns on failure. -/
def is_recent_publication (published : String) (start_date end_date : Date) : Bool :=
  if published = "" then false
  else
    match matchMonthYear1 published with
    | some (name, y) =>
      if y = 0 then false
      else
        match monthNumOfName name with
        | some m => monthAccept y m start_date end_date
        | none => false
    | none =>
      match matchMonthYear2 published with
      | some (y, m) => monthAccept y m start_date end_date
      | none =>
        match firstFormat [fmtISO, fmtBdY, fmtdBY, fmtSlashYMD] published with
        | some d => dateLeb start_date d && dateLeb d end_date
        | none =>
          match searchYMD published with
          | some (y, m, dd) =>
            match mkDate? y m dd with
            | some d => dateLeb start_date d && dateLeb d end_date
            | none => false
          | none => false

/-! Canonical record shape.  Optional fields that only some clients emit
default to none / empty. -/

/-- Canonical harvested record, the dictionary shape shared by all
clients. -/
structure Entry where
  title : String := ""
  authors : String := ""
  abstract : String := ""
  url : String := ""
  published : String := ""
  source : String := ""
  pdf_url : Option String := none
  doi : Option String := none
  updated : Option String := none
  categories : List String := []
deriving DecidableEq, Repr

/-- Outcome of processing one content block in a document scraper: skip
the block, emit a record (recording its title in the seen set), or halt
the whole scraper with the entries collected so far (an exception
escaping to the per-scraper handler, which returns the partial list). -/
inductive StepRes where
  | skip : StepRes
  | halt : StepRes
  | emit : String → Entry → StepRes

/-- The shared per-page loop of the document scrapers: iterate content
blocks threading the seen-titles set and collecting emitted records. -/
def tierLoop (step : α → List String → StepRes) : List α → List String → List Entry × List String
  | [], seen => ([], seen)
  | x :: xs, seen =>
    match step x seen with
    | .skip => tierLoop step xs seen
    | .halt => ([], seen)
    | .emit t e =>
      let r := tierLoop step xs (t :: seen)
      (e :: r.1, r.2)

/-- Simplified model of urllib.parse.urljoin: an absolute reference wins,
otherwise the reference is appended to the base.  URL resolution details
are irrelevant to every verified property. -/
def urljoin (base rel : String) : String :=
  if strStartsWith rel "http://" || strStartsWith rel "https://" then rel
  else base ++ rel

/-- The guarded join the scrapers use: urljoin when the path is truthy,
the empty string otherwise. -/
def resolveUrl (base : String) (path : Option String) : String :=
  match path with
  | some p => if p = "" then "" else urljoin base p
  | none => ""

/-! Anthropic news scraper.  Each DOM element is modelled by the fields
the code reads from it. -/

/-- One post card of the primary tier (an anchor element). -/
structure ACard where
  href : Option String := none
  headingText : Option String := none
  dateText : Option String := none
  categoryText : Option String := none

/-- One element of the fallback tier. -/
structure AFItem where
  headingText : Option String := none
  isAnchor : Bool := false
  ownHref : Option String := none
  innerHref : Option String := none

/-- The parsed page: the card list of the primary selector and the item
list of the fallback selector. -/
structure AnthropicPage where
  postCards : List ACard := []
  fallbackItems : List AFItem := []

/-- Per-card processing of the Anthropic primary tier. -/
def anthropicStep (now : Date) (card : ACard) (seen : List String) : StepRes :=
  match card.headingText with
  | none => .skip
  | some rawTitle =>
    let title := pyStrip rawTitle
    if seen.contains title || title.length < 10 then .skip
    else
      let newsUrl := resolveUrl "https://www.anthropic.com" card.href
      let date :=
        match card.dateText with
        | none => isoOfDate now
        | some raw =>
          let dt := pyStrip raw
          if dt = "" then isoOfDate now
          else
            match firstFormat [fmtbdY, fmtBdY, fmtISO, fmtmdY] dt with
            | some d => isoOfDate d
            | none => isoOfDate now
      let category :=
        match card.categoryText with
        | some c => pyStrip c
        | none => ""
      .emit title
        { title := title, url := newsUrl, published := date, abstract := category,
          authors := "Anthropic", source := "anthropic_news" }

/-- Per-item processing of the Anthropic fallback tier. -/
def anthropicFallbackStep (now : Date) (item : AFItem) (seen : List String) : StepRes :=
  match item.headingText with
  | none => .skip
  | some rawTitle =>
    let title := pyStrip rawTitle
    if seen.contains title || title.length < 10 then .skip
    else
      let newsUrl :=
        if item.isAnchor then resolveUrl "https://www.anthropic.com" item.ownHref
        else resolveUrl "https://www.anthropic.com" item.innerHref
      .emit title
        { title := title, url := newsUrl, published := isoOfDate now, abstract := "",
          authors := "Anthropic", source := "anthropic_news" }

/-! Transformer Circuits scraper. -/

/-- One paper element, with every field the code queries. -/
structure CPaper where
  titleText : Option String := none
  prevDateText : Option String := none
  innerDateText : Option String := none
  selfHref : Option String := none
  titleIsAnchor : Bool := false
  titleHref : String := ""
  titleInnerHref : Option String := none
  allHrefs : List String := []
  abstractText : Option String := none

/-- The URL resolution ladder of the circuits scraper. -/
def circuitsUrlPath (p : CPaper) : String :=
  match p.selfHref with
  | some h => h
  | none =>
    if p.titleIsAnchor then p.titleHref
    else
      match p.titleInnerHref with
      | some h => h
      | none =>
        match p.allHrefs.find?
            (fun h => !(h = "") && !(strStartsWith h "#") && !(containsSub h "javascript:")) with
        | some h => h
        | none => ""

/-- Raw date text of a paper element: the previous sibling date element
first, then a date element inside the paper, defaulting to the current
date rendered in ISO form. -/
def circuitsDate0 (p : CPaper) (now : Date) : String :=
  match p.prevDateText with
  | some t => pyStrip t
  | none =>
    match p.innerDateText with
    | some t => pyStrip t
    | none => isoOfDate now

/-- Month-year normalization of the circuits scraper: when the text looks
like a month-year and parses as a full month name, replace it by the last
calendar day of that month (computed by adding 31 days, resetting the day
to 1 and stepping back one day), clamped to the current date when the
first of that month is in the future; a failed parse leaves the text
unchanged. -/
def circuitsDate1 (d0 : String) (now : Date) : String :=
  if circuitsMonthYearMatch d0 then
    match runStrptimeBY d0 with
    | some parsed =>
      let lastDay := subDays 1 (replaceDay1 (addDays 31 parsed))
      if dateLtb now parsed then isoOfDate now else isoOfDate lastDay
    | none => d0
  else d0

/-- Final future-date clamp of the circuits scraper.  A non-empty date
string is re-parsed with the ISO format outside any handler, so a parse
failure is an exception that aborts the scraper (none). -/
def circuitsClamp (d1 : String) (now : Date) : Option String :=
  if d1 = "" then some d1
  else
    match runStrptime fmtISO d1 with
    | none => none
    | some pd => some (if dateLtb now pd then isoOfDate now else d1)

/-- Per-paper processing of the circuits scraper. -/
def circuitsStep (url : String) (now : Date) (p : CPaper) (seen : List String) : StepRes :=
  match p.titleText with
  | none => .skip
  | some raw =>
    let title := pyStrip raw
    if seen.contains title then .skip
    else if title = "Articles" || title = "Publications" || title = "Research"
        || title.length < 15 then .skip
    else
      match circuitsClamp (circuitsDate1 (circuitsDate0 p now) now) now with
      | none => .halt
      | some published =>
        let path := circuitsUrlPath p
        let fullUrl := if path = "" then "" else urljoin url path
        let abstract :=
          match p.abstractText with
          | some a => pyStrip a
          | none => ""
        .emit title
          { title := title, url := fullUrl, published := published, abstract := abstract,
            authors := "Anthropic Transformer Circuits Team", source := "transformer_circuits" }

/-! OpenAI publications scraper. -/

/-- A time element: machine-readable attribute and visible text. -/
structure OTime where
  datetimeAttr : Option String := none
  text : String := ""

/-- One publication item. -/
structure OItem where
  titleLinkText : Option String := none
  headingText : Option String := none
  linkHref : Option String := none
  timeElem : Option OTime := none
  abstractText : Option String := none

/-- Date extraction of the OpenAI scraper: prefer the datetime attribute
(dropping a time-of-day suffix), fall back to parsing the visible text
only when the date is still the default; no future clamp is applied. -/
def openaiDate (t : Option OTime) (now : Date) : String :=
  let nowIso := isoOfDate now
  match t with
  | none => nowIso
  | some te =>
    let dPair : String × String :=
      match te.datetimeAttr with
      | some raw =>
        let dtxt := if containsChar raw 'T' then takeBeforeChar raw 'T' else raw
        match runStrptime fmtISO dtxt with
        | some pd => (isoOfDate pd, dtxt)
        | none => (nowIso, pyStrip te.text)
      | none => (nowIso, pyStrip te.text)
    if dPair.1 = nowIso && !(dPair.2 = "") then
      match firstFormat [fmtbdY, fmtBdY, fmtISO] dPair.2 with
      | some pd => isoOfDate pd
      | none => dPair.1
    else dPair.1

/-- Per-item processing of the OpenAI scraper. -/
def openaiStep (now : Date) (item : OItem) (seen : List String) : StepRes :=
  let title? : Option String :=
    match item.titleLinkText with
    | some t => some (pyStrip t)
    | none =>
      match item.headingText with
      | some t => some (pyStrip t)
      | none => none
  match title? with
  | none => .skip
  | some title =>
    if seen.contains title || title.length < 15 then .skip
    else
      let urlPath :=
        match item.linkHref with
        | some h => h
        | none => ""
      let fullUrl := if urlPath = "" then "" else urljoin "https://openai.com" urlPath
      let abstract :=
        match item.abstractText with
        | some a => pyStrip a
        | none => ""
      .emit title
        { title := title, url := fullUrl, published := openaiDate item.timeElem now,
          abstract := abstract, authors := "OpenAI", source := "openai_publications" }

/-! DeepMind publications scraper. -/

/-- A time element of the main tier. -/
structure DTime where
  datetimeAttr : Option String := none
  longText : Option String := none
  text : String := ""

/-- One list item of the main tier. -/
structure DItem where
  titleLinkText : Option String := none
  titleLinkHref : String := ""
  timeElem : Option DTime := none
  ddCaptions : List String := []

/-- One item of the fallback tier. -/
structure DFItem where
  headingText : Option String := none
  linkHref : Option String := none
  dateText : Option String := none
  abstractText : Option String := none
  abstractIsTitle : Bool := false

/-- The parsed DeepMind page. -/
structure DeepmindPage where
  items : List DItem := []
  fallbackItems : List DFItem := []

/-- Date extraction of the DeepMind main tier: datetime attribute first
(on failure the visible text is read but never parsed in that branch),
otherwise the long-format span or the visible text run through the format
list. -/
def deepmindDate (t : Option DTime) (now : Date) : String :=
  let nowIso := isoOfDate now
  match t with
  | none => nowIso
  | some te =>
    match te.datetimeAttr with
    | some raw =>
      (match runStrptime fmtISO raw with
       | some pd => isoOfDate pd
       | none => nowIso)
    | none =>
      let dateText :=
        match te.longText with
        | some s => pyStrip s
        | none => pyStrip te.text
      match firstFormat [fmtdBY, fmtBdY, fmtdby] dateText with
      | some pd => isoOfDate pd
      | none => nowIso

/-- Future-date clamp of the DeepMind main tier, with the same unguarded
re-parse as the circuits scraper. -/
def deepmindClamp (d : String) (now : Date) : Option String :=
  if d = "" then some d
  else
    match runStrptime fmtISO d with
    | none => none
    | some pd => some (if dateLtb now pd then isoOfDate now else d)

/-- Per-item processing of the DeepMind main tier. -/
def deepmindStep (now : Date) (item : DItem) (seen : List String) : StepRes :=
  match item.titleLinkText with
  | none => .skip
  | some raw =>
    let title := pyStrip raw
    if seen.contains title || title.length < 15 then .skip
    else
      match deepmindClamp (deepmindDate item.timeElem now) now with
      | none => .halt
      | some published =>
        let fullUrl :=
          if item.titleLinkHref = "" then ""
          else urljoin "https://deepmind.google" item.titleLinkHref
        let authors :=
          match item.ddCaptions.head? with
          | some a => pyStrip a
          | none => "DeepMind"
        let venue :=
          match item.ddCaptions.get? 1 with
          | some v => pyStrip v
          | none => ""
        .emit title
          { title := title, url := fullUrl, published := published, abstract := venue,
            authors := authors, source := "deepmind_research" }

/-- Per-item processing of the DeepMind fallback tier (no future clamp
here). -/
def deepmindFallbackStep (now : Date) (item : DFItem) (seen : List String) : StepRes :=
  match item.headingText with
  | none => .skip
  | some raw =>
    let title := pyStrip raw
    if seen.contains title || title.length < 15 then .skip
    else
      let urlPath :=
        match item.linkHref with
        | some h => h
        | none => ""
      let fullUrl := if urlPath = "" then "" else urljoin "https://deepmind.google" urlPath
      let date :=
        match item.dateText with
        | none => isoOfDate now
        | some raw2 =>
          match firstFormat [fmtdBY, fmtBdY, fmtISO] (pyStrip raw2) with
          | some pd => isoOfDate pd
          | none => isoOfDate now
      let abstract :=
        match item.abstractText with
        | some a => if item.abstractIsTitle then "" else pyStrip a
        | none => ""
      .emit title
        { title := title, url := fullUrl, published := date, abstract := abstract,
          authors := "DeepMind", source := "deepmind_research" }

/-! Network environment and the four scraper entry points.  The
environment gives, for each URL, the HTTP status and the page as parsed
by each family of selectors. -/

/-- Abstract network environment of one harvest run. -/
structure Env where
  status : String → Nat
  circuitsPage : String → List CPaper
  anthropicPage : String → AnthropicPage
  openaiPage : String → List OItem
  deepmindPage : String → DeepmindPage

/-- Model of scrape_anthropic_research: a non-200 status yields the empty
list, otherwise the primary tier is processed and the fallback tier runs
only when the primary produced nothing, sharing the seen-titles set. -/
def scrape_anthropic_research (env : Env) (url : String) (now : Date) : List Entry :=
  if !(env.status url = 200) then []
  else
    let page := env.anthropicPage url
    let r := tierLoop (anthropicStep now) page.postCards []
    if r.1 = [] then (tierLoop (anthropicFallbackStep now) page.fallbackItems r.2).1
    else r.1

/-- Model of scrape_circuits_research: a non-200 status yields the empty
list, otherwise the paper elements are processed in a single tier; a date
re-parse failure aborts with the partial list. -/
def scrape_circuits_research (env : Env) (url : String) (now : Date) : List Entry :=
  if !(env.status url = 200) then []
  else (tierLoop (circuitsStep url now) (env.circuitsPage url) []).1

/-- Model of scrape_openai_research: a non-200 status yields the empty
list, otherwise the publication items are processed in a single loop. -/
def scrape_openai_research (env : Env) (url : String) (now : Date) : List Entry :=
  if !(env.status url = 200) then []
  else (tierLoop (openaiStep now) (env.openaiPage url) []).1

/-- Model of scrape_deepmind_research: a non-200 status yields the empty
list, otherwise the main tier runs and the fallback tier runs only when
the main tier produced nothing, sharing the seen-titles set. -/
def scrape_deepmind_research (env : Env) (url : String) (now : Date) : List Entry :=
  if !(env.status url = 200) then []
  else
    let page := env.deepmindPage url
    let r := tierLoop (deepmindStep now) page.items []
    if r.1 = [] then (tierLoop (deepmindFallbackStep now) page.fallbackItems r.2).1
    else r.1

/-! Harvest orchestrator. -/

/-- Keyword configuration with its three term buckets. -/
structure Keywords where
  ml_terms : List String := []
  biology_terms : List String := []
  exclude_terms : List String := []

/-- Model of keyword_matches from the blog scraper (the caller only
invokes it with a non-empty keyword configuration, so the truthiness
guard on the dictionary is never taken). -/
def keyword_matches (entry : Entry) (keywords : Keywords) : Bool :=
  let textLower := lowerStr (entry.title ++ " " ++ entry.abstract ++ " " ++ entry.authors)
  let matchesPositive :=
    (keywords.ml_terms ++ keywords.biology_terms).any
      (fun t => containsSub textLower (lowerStr t))
  let matchesExclude :=
    keywords.exclude_terms.any (fun t => containsSub textLower (lowerStr t))
  matchesPositive && !matchesExclude

/-- One configured blog source (the url key may be missing or empty, in
which case the source is skipped). -/
structure BlogSource where
  name : String := ""
  url : Option String := none
deriving DecidableEq

/-- The fixed hostname/path substrings the dispatch tests, applied to the
lower-cased URL. -/
def urlKnown (u : String) : Bool :=
  containsSub u "transformer-circuits.pub" || containsSub u "anthropic.com/" ||
    containsSub u "openai.com/research" || containsSub u "deepmind"

/-- Dispatch of one source URL to its specialized scraper; an
unrecognized URL raises ValueError, modelled as error. -/
def dispatchSource (env : Env) (now : Date) (rawUrl : String) : Except String (List Entry) :=
  let url := lowerStr rawUrl
  if containsSub url "transformer-circuits.pub" then .ok (scrape_circuits_research env url now)
  else if containsSub url "anthropic.com/" then .ok (scrape_anthropic_research env url now)
  else if containsSub url "openai.com/research" then .ok (scrape_openai_research env url now)
  else if containsSub url "deepmind" then .ok (scrape_deepmind_research env url now)
  else .error (String.append "Unknown blog source: " url)

/-- Per-source post-processing: optional keyword filter, then the
unconditional recency filter. -/
def applyFilters (entries : List Entry) (keywords : Option Keywords)
    (enableKeywords : Bool) (start_date end_date : Date) : List Entry :=
  let afterKw :=
    if enableKeywords then
      match keywords with
      | some kw => entries.filter (fun e => keyword_matches e kw)
      | none => entries
    else entries
  afterKw.filter (fun e => is_recent_publication e.published start_date end_date)

/-- The source loop of scrape_blogs, accumulating filtered entries; an
unrecognized URL propagates as an error out of the loop. -/
def scrapeBlogsGo (env : Env) (keywords : Option Keywords) (start_date end_date now : Date)
    (enableKeywords : Bool) : List BlogSource → List Entry → Except String (List Entry)
  | [], acc => .ok acc
  | s :: rest, acc =>
    match s.url with
    | none => scrapeBlogsGo env keywords start_date end_date now enableKeywords rest acc
    | some u =>
      if u = "" then scrapeBlogsGo env keywords start_date end_date now enableKeywords rest acc
      else
        match dispatchSource env now u with
        | .error e => .error e
        | .ok entries =>
          scrapeBlogsGo env keywords start_date end_date now enableKeywords rest
            (acc ++ applyFilters entries keywords enableKeywords start_date end_date)

/-- Body of scrape_blogs inside its top-level handler: empty source list
short-circuits, otherwise the loop runs and the batch is truncated to the
configured maximum. -/
def scrape_blogsCore (env : Env) (cfg : List BlogSource) (keywords : Option Keywords)
    (start_date end_date now : Date) (maxEntries : Nat) (enableKeywords : Bool) :
    Except String (List Entry) :=
  if cfg = [] then .ok []
  else
    match scrapeBlogsGo env keywords start_date end_date now enableKeywords cfg [] with
    | .error e => .error e
    | .ok l => .ok (l.take maxEntries)

/-- Model of scrape_blogs: the whole body runs inside a try/except that
converts any exception, including the ValueError raised for an unknown
source URL, into an empty result list. -/
def scrape_blogs (env : Env) (cfg : List BlogSource) (keywords : Option Keywords)
    (start_date end_date now : Date) (maxEntries : Nat) (enableKeywords : Bool) : List Entry :=
  match scrape_blogsCore env cfg keywords start_date end_date now maxEntries enableKeywords with
  | .ok l => l
  | .error _ => []

/-! Structured-API client (arXiv). -/

/-- One result item of the structured API, with its true publication
timestamp already stripped of its timezone (day precision). -/
structure ArxivPaper where
  title : String := ""
  authors : List String := []
  summary : String := ""
  entry_id : String := ""
  pdf_url : String := ""
  published : Date := { year := 1970, month := 1, day := 1 }
  updated : Date := { year := 1970, month := 1, day := 1 }
  categories : List String := []

/-- Model of format_paper from the arXiv client. -/
def arxiv_format_paper (p : ArxivPaper) : Entry :=
  { title := p.title
    authors := String.intercalate ", " p.authors
    abstract := p.summary
    url := p.entry_id
    pdf_url := some p.pdf_url
    published := isoOfDate p.published
    updated := some (isoOfDate p.updated)
    categories := p.categories
    source := "arxiv" }

/-- Model of the filtering and formatting stage of scrape_arxiv: the
results list is whatever the paginated query returned (capped upstream by
the requested maximum); every result is re-filtered locally against the
inclusive window and then formatted. -/
def scrape_arxiv (results : List ArxivPaper) (start_date end_date : Date) : List Entry :=
  (results.filter (fun p => dateLeb start_date p.published && dateLeb p.published end_date)).map
    arxiv_format_paper

/-! Secondary preprint client (bioRxiv). -/

/-- One collection item of the bioRxiv API, with the missing-key defaults
of the dictionary accesses already applied. -/
structure BiorxivRaw where
  title : String := ""
  authors : String := ""
  abstract : String := ""
  doi : String := ""
  version : String := "1"
  date : String := ""
deriving DecidableEq

/-- Composition of the paper_data construction and format_paper of the
bioRxiv client: one record built verbatim from the API item. -/
def biorxiv_format_paper (p : BiorxivRaw) : Entry :=
  { title := p.title
    authors := p.authors
    abstract := p.abstract
    url := "https://www.biorxiv.org/content/" ++ p.doi ++ "v" ++ p.version
    pdf_url := some ("https://www.biorxiv.org/content/" ++ p.doi ++ "v" ++ p.version ++ ".full.pdf")
    published := p.date
    doi := some p.doi
    source := "biorxiv" }

/-- Inner collection loop of fetch_biorxiv_papers: append formatted
papers, stopping once the cap is reached (the check runs after each
append). -/
def biorxivAppend (maxPapers : Nat) : List Entry → List BiorxivRaw → List Entry
  | acc, [] => acc
  | acc, p :: ps =>
    let acc2 := acc ++ [biorxiv_format_paper p]
    if maxPapers ≤ acc2.length then acc2
    else biorxivAppend maxPapers acc2 ps

/-- Environment of the bioRxiv API: start string, end string and cursor
to the collection of that page; none models a request or JSON failure,
which breaks the loop. -/
def BiorxivEnv : Type := String → String → Nat → Option (List BiorxivRaw)

/-- Cursor loop of fetch_biorxiv_papers: while the cap is not reached,
request the next page; a failure or an empty collection ends the loop,
otherwise the collection is appended and the cursor advances by its
length. -/
def fetchGo (api : BiorxivEnv) (startStr endStr : String) (maxPapers : Nat)
    (cursor : Nat) (papers : List Entry) : List Entry :=
  if h : papers.length < maxPapers then
    match api startStr endStr cursor with
    | none => papers
    | some coll =>
      if hc : coll = [] then papers
      else
        fetchGo api startStr endStr maxPapers (cursor + coll.length)
          (biorxivAppend maxPapers papers coll)
  else papers
termination_by maxPapers - papers.length
decreasing_by
  have key : ∀ (l : List BiorxivRaw) (acc : List Entry),
      acc.length ≤ (biorxivAppend maxPapers acc l).length := by
    intro l
    induction l with
    | nil => intro acc; simp [biorxivAppend]
    | cons p ps ih =>
      intro acc
      simp only [biorxivAppend]
      split
      · simp
      · exact Nat.le_trans (by simp) (ih (acc ++ [biorxiv_format_paper p]))
  have key2 : papers.length < (biorxivAppend maxPapers papers coll).length := by
    cases coll with
    | nil => exact absurd rfl hc
    | cons p ps =>
      simp only [biorxivAppend]
      split
      · simp
      · exact Nat.lt_of_lt_of_le (by simp) (key ps _)
  omega

/-- Model of fetch_biorxiv_papers. -/
def fetch_biorxiv_papers (api : BiorxivEnv) (startStr endStr : String)
    (maxPapers : Nat) : List Entry :=
  fetchGo api startStr endStr maxPapers 0 []

/-- Model of keyword_matches from the bioRxiv client (positive terms
only). -/
def biorxiv_keyword_matches (text : String) (keywords : Keywords) : Bool :=
  let tl := lowerStr text
  (keywords.ml_terms ++ keywords.biology_terms).any (fun t => containsSub tl (lowerStr t))

/-- Model of scrape_biorxiv: the query window is widened by moving its
start 90 days earlier, the fetched papers are kept as is, and the keyword
filter only runs when the paper count exceeds the cap, which the fetch
already prevents. -/
def scrape_biorxiv (api : BiorxivEnv) (keywords : Option Keywords)
    (start_date end_date : Date) (maxPapers : Nat) : List Entry :=
  let startStr := isoOfDate (subDays 90 start_date)
  let endStr := isoOfDate end_date
  let papers := fetch_biorxiv_papers api startStr endStr maxPapers
  match keywords with
  | some kw =>
    if maxPapers < papers.length then
      (papers.filter
        (fun p => biorxiv_keyword_matches (p.title ++ " " ++ p.abstract) kw)).take maxPapers
    else papers
  | none => papers

/-- The record the circuits client emits for the future-dated paper when
the harvest runs on 2025-10-12: the published date is clamped to the
harvest date. -/
def clampedEntry : Entry :=
  { title := "A Circuits Paper From The Future"
    url := ""
    published := "2025-10-12"
    abstract := ""
    authors := "Anthropic Transformer Circuits Team"
    source := "transformer_circuits" }

/-! Derived definitions used to state the verified properties. -/

/-- The structured-API item of the window scenario, published
2025-01-05. -/
def scenarioPaper : ArxivPaper :=
  { title := "A Structured Api Item"
    published := { year := 2025, month := 1, day := 5 } }

/-- Successful month-year classification of the recency filter: the first
pattern with a resolvable month name and a nonzero year, else the second
pattern.  The filter answers false for strings matching a pattern whose
month name or year cannot be turned into a date. -/
def monthYearOf (s : String) : Option (Nat × Nat) :=
  match matchMonthYear1 s with
  | some (name, y) =>
    if y = 0 then none
    else (monthNumOfName name).map (fun m => (y, m))
  | none => matchMonthYear2 s

/-- The calendar month preceding the month of a date. -/
def prevYM (d : Date) : Nat × Nat :=
  if d.month = 1 then (d.year - 1, 12) else (d.year, d.month - 1)

/-- The calendar month following the month of a date. -/
def nextYM (d : Date) : Nat × Nat :=
  if d.month = 12 then (d.year + 1, 1) else (d.year, d.month + 1)

/-- A configured source passes the dispatch without raising: no URL, an
empty URL (both skipped) or a URL matching one of the known substrings. -/
def sourceOk (b : BlogSource) : Bool :=
  match b.url with
  | none => true
  | some u => u = "" || urlKnown (lowerStr u)

/-- What one configured source contributes to the harvest batch: nothing
when it is skipped or its URL is unknown, otherwise the dispatched
scraper output after the keyword and recency filters. -/
def sourceContrib (env : Env) (keywords : Option Keywords) (start_date end_date now : Date)
    (enableKeywords : Bool) (b : BlogSource) : List Entry :=
  match b.url with
  | none => []
  | some u =>
    if u = "" then []
    else
      match dispatchSource env now u with
      | .error _ => []
      | .ok entries => applyFilters entries keywords enableKeywords start_date end_date

/-- An environment with empty pages everywhere, used to evaluate the
orchestrator on concrete source lists. -/
def emptyEnv : Env :=
  { status := fun _ => 200
    circuitsPage := fun _ => []
    anthropicPage := fun _ => {}
    openaiPage := fun _ => []
    deepmindPage := fun _ => {} }

/-- A source list with one unrecognized URL. -/
def unknownCfg : List BlogSource :=
  [{ name := "Example Blog", url := some "https://example.com/blog" }]

/-- An OpenAI publication item carrying a future machine-readable date. -/
def futureItem : OItem :=
  { titleLinkText := some "A Publication With A Future Date Attribute"
    timeElem := some { datetimeAttr := some "2099-01-01T11:00" } }

/-- An environment whose OpenAI page holds the future-dated item. -/
def futureEnv : Env :=
  { emptyEnv with openaiPage := fun _ => [futureItem] }

/-- A circuits paper element dated only by month and year. -/
def marchPaper : CPaper :=
  { titleText := some "On the Biology of a Large Language Model"
    prevDateText := some "March 2025" }

/-- An environment whose circuits page holds the month-year paper. -/
def marchEnv : Env :=
  { emptyEnv with circuitsPage := fun _ => [marchPaper] }

/-- A circuits paper element with an ISO date in the future, used to
exercise the clamp on a concrete input. -/
def futureCircuitsPaper : CPaper :=
  { titleText := some "A Circuits Paper From The Future"
    prevDateText := some "2030-01-05" }

/-- An environment whose circuits page holds the future-dated paper. -/
def futureCircuitsEnv : Env :=
  { emptyEnv with circuitsPage := fun _ => [futureCircuitsPaper] }

/-- A bioRxiv API answering one page with a single untitled paper dated
before any recent window. -/
def untitledApi : BiorxivEnv := fun _ _ cursor =>
  if cursor = 0 then
    some [{ title := "", doi := "10.1101/2024.10.01.111111", date := "2024-10-01" }]
  else some []

/-- A DeepMind source entry. -/
def dmSource : BlogSource :=
  { name := "DeepMind", url := some "https://deepmind.google/research" }

/-- A circuits source entry. -/
def circSource : BlogSource :=
  { name := "Circuits", url := some "https://transformer-circuits.pub/" }

/-- An environment where the DeepMind fetch answers 500 and the circuits
page holds one paper inside the window. -/
def failingDeepmindEnv : Env :=
  { emptyEnv with
    status := fun u => if u = "https://deepmind.google/research" then 500 else 200
    circuitsPage := fun _ => [{ titleText := some "On the Biology of a Large Language Model"
                                prevDateText := some "2025-03-05" }] }

/-! Helper lemmas about the string and date models. -/

theorem dropWhile_pyStripL (l : List Char) :
    (pyStripL l).dropWhile pySpace = pyStripL l := by
  unfold pyStripL
  rw [List.dropWhile_eq_self_iff]
  intro hl
  have hpre := List.rdropWhile_prefix pySpace (l.dropWhile pySpace)
  have hlen : 0 < (l.dropWhile pySpace).length :=
    Nat.lt_of_lt_of_le hl hpre.length_le
  have hget := List.IsPrefix.getElem hpre hl
  simp only [List.get_eq_getElem]
  rw [hget]
  have := List.dropWhile_get_zero_not pySpace l hlen
  simpa [List.get_eq_getElem] using this

theorem pyStripL_idem (l : List Char) : pyStripL (pyStripL l) = pyStripL l := by
  conv_lhs => rw [pyStripL, dropWhile_pyStripL]
  unfold pyStripL
  rw [List.rdropWhile_idempotent]

theorem pyStrip_idem (s : String) : pyStrip (pyStrip s) = pyStrip s := by
  unfold pyStrip
  simp [pyStripL_idem]

theorem digitChar_isDigit (n : Nat) : isDigitChar (digitChar n) = true := by
  have h : n % 10 < 10 := Nat.mod_lt _ (by omega)
  unfold digitChar
  set r := n % 10 with hr
  interval_cases r <;> decide

theorem digitChar_notAlpha (n : Nat) : isAlphaChar (digitChar n) = false := by
  have h : n % 10 < 10 := Nat.mod_lt _ (by omega)
  unfold digitChar
  set r := n % 10 with hr
  interval_cases r <;> decide

theorem digitChar_notSpace (n : Nat) : pySpace (digitChar n) = false := by
  have h : n % 10 < 10 := Nat.mod_lt _ (by omega)
  unfold digitChar
  set r := n % 10 with hr
  interval_cases r <;> decide

theorem digVal_digitChar (n : Nat) : digVal (digitChar n) = n % 10 := by
  have h : n % 10 < 10 := Nat.mod_lt _ (by omega)
  unfold digitChar digVal
  set r := n % 10 with hr
  interval_cases r <;> decide

theorem natFromDigits_pad4 (y : Nat) (h : y ≤ 9999) : natFromDigits (pad4 y) = y := by
  simp only [pad4, natFromDigits, List.foldl, digVal_digitChar]
  omega

theorem daysInMonth_le_31 (y m : Nat) : daysInMonth y m ≤ 31 := by
  unfold daysInMonth
  split
  · split <;> omega
  · split <;> omega

theorem pYear4_pad4 (y : Nat) (h : y ≤ 9999) (rest : List Char) :
    pYear4 (pad4 y ++ rest) = [(y, rest)] := by
  simp only [pYear4, pDigitsExact, pad4, List.cons_append, List.nil_append]
  simp [List.take, List.drop, digitChar_isDigit]
  have := natFromDigits_pad4 y h
  simp only [pad4] at this
  simpa using this

theorem pMonthNum_dash (m : Nat) (h1 : 1 ≤ m) (h2 : m ≤ 12) (rest : List Char) :
    (pLeft pMonthNum (pLit '-')) (pad2 m ++ '-' :: rest) = [(m, rest)] := by
  interval_cases m <;> rfl

theorem pDayNum_pad2 (dd : Nat) (h1 : 1 ≤ dd) (h2 : dd ≤ 31) :
    ∃ t, pDayNum (pad2 dd) = (dd, ([] : List Char)) :: t := by
  interval_cases dd <;> exact ⟨_, rfl⟩

theorem iso_roundtrip (d : Date) (h : validDate d = true) :
    runStrptime fmtISO (isoOfDate d) = some d := by
  obtain ⟨y, m, dd⟩ := d
  simp only [validDate, Bool.and_eq_true, decide_eq_true_eq] at h
  obtain ⟨⟨⟨⟨⟨hy1, hy2⟩, hm1⟩, hm2⟩, hd1⟩, hd2⟩ := h
  have hd31 : dd ≤ 31 := Nat.le_trans hd2 (daysInMonth_le_31 y m)
  have hiso : (isoOfDate { year := y, month := m, day := dd }).data
      = pad4 y ++ '-' :: (pad2 m ++ '-' :: pad2 dd) := by
    simp [isoOfDate]
  have hy : pYear4 (pad4 y ++ '-' :: (pad2 m ++ '-' :: pad2 dd))
      = [(y, '-' :: (pad2 m ++ '-' :: pad2 dd))] := pYear4_pad4 y hy2 _
  have hmm : (pLeft pMonthNum (pLit '-')) (pad2 m ++ '-' :: pad2 dd)
      = [(m, pad2 dd)] := pMonthNum_dash m hm1 hm2 _
  obtain ⟨t, hdd⟩ := pDayNum_pad2 dd hd1 hd31
  have h1 : (pLeft pYear4 (pLit '-')) (pad4 y ++ '-' :: (pad2 m ++ '-' :: pad2 dd))
      = [(y, pad2 m ++ '-' :: pad2 dd)] := by
    simp only [pLeft, pMap, pSeq, hy]
    simp [pLit]
  have h2 : (pSeq (pLeft pMonthNum (pLit '-')) pDayNum) (pad2 m ++ '-' :: pad2 dd)
      = ((m, dd), ([] : List Char)) :: (t.map fun s => ((m, s.1), s.2)) := by
    simp only [pSeq, hmm]
    simp [hdd]
  have h3 : fmtISO (pad4 y ++ '-' :: (pad2 m ++ '-' :: pad2 dd))
      = ((y, m, dd), ([] : List Char))
          :: ((t.map fun s => ((m, s.1), s.2)).map fun s => ((y, s.1), s.2)) := by
    simp only [fmtISO, pSeq, h1]
    simp [hmm, hdd]
  unfold runStrptime
  rw [hiso, h3]
  simp [mkDate?, validDate, hy1, hy2, hm1, hm2, hd1, hd2]

theorem isoOfDate_ne_empty (d : Date) : isoOfDate d ≠ "" := by
  intro h
  have hdata := congrArg String.data h
  simp [isoOfDate, pad4, pad2] at hdata

theorem dateLeb_refl (d : Date) : dateLeb d d = true := by
  simp [dateLeb]

theorem dateLtb_false_iff (a b : Date) : dateLtb a b = false ↔ dateLeb b a = true := by
  unfold dateLtb dateLeb
  rcases a with ⟨ay, am, ad⟩
  rcases b with ⟨by_, bm, bd⟩
  simp only [Bool.or_eq_false_iff, Bool.and_eq_false_iff, Bool.or_eq_true,
    Bool.and_eq_true, decide_eq_false_iff_not, decide_eq_true_eq]
  constructor
  · intro h
    omega
  · intro h
    omega

/-! Generic lemmas about the shared per-page loop. -/

theorem tierLoop_emit_prop (step : α → List String → StepRes) (P : Entry → Prop)
    (hstep : ∀ x seen t e, step x seen = .emit t e → P e) :
    ∀ (xs : List α) (seen : List String) (e : Entry),
      e ∈ (tierLoop step xs seen).1 → P e := by
  intro xs
  induction xs with
  | nil => intro seen e he; simp [tierLoop] at he
  | cons x rest ih =>
    intro seen e he
    rw [tierLoop] at he
    cases hs : step x seen with
    | skip => rw [hs] at he; exact ih seen e he
    | halt => rw [hs] at he; simp at he
    | emit t e2 =>
      rw [hs] at he
      simp only [List.mem_cons] at he
      cases he with
      | inl h => exact h ▸ hstep x seen t e2 hs
      | inr h => exact ih (t :: seen) e h

theorem circuitsClamp_sound (d1 : String) (now : Date) (hnow : validDate now = true)
    (pub : String) (h : circuitsClamp d1 now = some pub) :
    ∀ dd, runStrptime fmtISO pub = some dd → dateLeb dd now = true := by
  unfold circuitsClamp at h
  split at h
  · rename_i h0
    intro dd hdd
    simp only [Option.some.injEq] at h
    rw [← h, h0] at hdd
    rw [show runStrptime fmtISO ("" : String) = none from rfl] at hdd
    exact Option.noConfusion hdd
  · cases hp : runStrptime fmtISO d1 with
    | none => rw [hp] at h; exact absurd h (by simp)
    | some pd =>
      rw [hp] at h
      simp only [Option.some.injEq] at h
      intro dd hdd
      by_cases hlt : dateLtb now pd = true
      · rw [hlt] at h
        simp only [if_true] at h
        rw [← h, iso_roundtrip now hnow] at hdd
        simp only [Option.some.injEq] at hdd
        rw [← hdd]
        exact dateLeb_refl now
      · simp only [Bool.not_eq_true] at hlt
        rw [hlt] at h
        simp only [if_false, Bool.false_eq_true] at h
        rw [← h, hp] at hdd
        simp only [Option.some.injEq] at hdd
        rw [← hdd]
        exact (dateLtb_false_iff now pd).mp hlt

theorem deepmindClamp_sound (d1 : String) (now : Date) (hnow : validDate now = true)
    (pub : String) (h : deepmindClamp d1 now = some pub) :
    ∀ dd, runStrptime fmtISO pub = some dd → dateLeb dd now = true := by
  unfold deepmindClamp at h
  split at h
  · rename_i h0
    intro dd hdd
    simp only [Option.some.injEq] at h
    rw [← h, h0] at hdd
    rw [show runStrptime fmtISO ("" : String) = none from rfl] at hdd
    exact Option.noConfusion hdd
  · cases hp : runStrptime fmtISO d1 with
    | none => rw [hp] at h; exact absurd h (by simp)
    | some pd =>
      rw [hp] at h
      simp only [Option.some.injEq] at h
      intro dd hdd
      by_cases hlt : dateLtb now pd = true
      · rw [hlt] at h
        simp only [if_true] at h
        rw [← h, iso_roundtrip now hnow] at hdd
        simp only [Option.some.injEq] at hdd
        rw [← hdd]
        exact dateLeb_refl now
      · simp only [Bool.not_eq_true] at hlt
        rw [hlt] at h
        simp only [if_false, Bool.false_eq_true] at h
        rw [← h, hp] at hdd
        simp only [Option.some.injEq] at hdd
        rw [← hdd]
        exact (dateLtb_false_iff now pd).mp hlt

theorem matchMonthYear1_iso (d : Date) : matchMonthYear1 (isoOfDate d) = none := by
  unfold matchMonthYear1 isoOfDate
  simp [pad4, List.takeWhile_cons, digitChar_notAlpha]

theorem matchMonthYear2_iso (d : Date) : matchMonthYear2 (isoOfDate d) = none := by
  unfold matchMonthYear2 isoOfDate
  simp only [String.data]
  simp [pad4, pad2, digitChar_isDigit, List.takeWhile_cons,
    (by decide : isDigitChar '-' = false), atDollar]

theorem is_recent_iso (d : Date) (h : validDate d = true) (st en : Date) :
    is_recent_publication (isoOfDate d) st en = (dateLeb st d && dateLeb d en) := by
  unfold is_recent_publication
  rw [if_neg (isoOfDate_ne_empty d)]
  rw [matchMonthYear1_iso, matchMonthYear2_iso]
  unfold firstFormat
  rw [iso_roundtrip d h]

theorem titleNonempty (e : Entry) (hlen : 10 ≤ e.title.length) : e.title ≠ "" := by
  intro h
  rw [h] at hlen
  simp at hlen


theorem dateLtb_irrefl (d : Date) : dateLtb d d = false := by
  simp [dateLtb]

theorem dateLtb_leb_trans (a b c : Date) (h1 : dateLtb a b = true) (h2 : dateLeb b c = true) :
    dateLtb a c = true := by
  rcases a with ⟨ay, am, ad⟩
  rcases b with ⟨yy, bm, bd⟩
  rcases c with ⟨cy, cm, cd⟩
  simp only [dateLtb, dateLeb, Bool.or_eq_true, Bool.and_eq_true, decide_eq_true_eq] at *
  omega

theorem dateLeb_ltb_trans (a b c : Date) (h1 : dateLeb a b = true) (h2 : dateLtb b c = true) :
    dateLtb a c = true := by
  rcases a with ⟨ay, am, ad⟩
  rcases b with ⟨yy, bm, bd⟩
  rcases c with ⟨cy, cm, cd⟩
  simp only [dateLtb, dateLeb, Bool.or_eq_true, Bool.and_eq_true, decide_eq_true_eq] at *
  omega

theorem monthAccept_iff (y m : Nat) (st en : Date)
    (h1le : 1 ≤ en.month) (hle12 : en.month ≤ 12) :
    (monthAccept y m st en = true ↔
      ((y, m) = prevYM en ∨ (y, m) = (en.year, en.month) ∨ (y, m) = nextYM en ∨
        (ymLeb (st.year, st.month) (y, m) = true ∧
          ymLeb (y, m) (en.year, en.month) = true))) := by
  rcases st with ⟨sy, sm, sd⟩
  rcases en with ⟨ey, em, ed⟩
  simp only at h1le hle12
  unfold monthAccept prevYM nextYM ymLeb
  simp only [List.mem_cons, List.not_mem_nil, or_false, Prod.mk.injEq,
    decide_eq_true_eq, Bool.or_eq_true, Bool.and_eq_true]
  split_ifs <;>
    simp_all only [List.mem_cons, List.not_mem_nil, or_false, Prod.mk.injEq,
      Bool.or_eq_true, Bool.and_eq_true, decide_eq_true_eq, true_iff, false_iff,
      not_or] <;>
    (first
      | omega
      | simp)


theorem anthropicStep_emit (now : Date) (card : ACard) (seen : List String)
    (t : String) (e : Entry) (h : anthropicStep now card seen = .emit t e) :
    e.title = t ∧ seen.contains t = false ∧ e.title = pyStrip e.title ∧
      10 ≤ e.title.length := by
  unfold anthropicStep at h
  cases hh : card.headingText with
  | none => rw [hh] at h; exact absurd h (by simp)
  | some raw =>
    rw [hh] at h
    dsimp only at h
    split at h
    · exact absurd h (by simp)
    · rename_i hcond
      simp only [Bool.or_eq_true, not_or, Bool.not_eq_true, decide_eq_true_eq] at hcond
      simp only [StepRes.emit.injEq] at h
      obtain ⟨ht, he⟩ := h
      subst ht
      subst he
      refine ⟨rfl, hcond.1, (pyStrip_idem raw).symm, ?_⟩
      show (10 : Nat) ≤ (pyStrip raw).length
      omega

theorem anthropicFallbackStep_emit (now : Date) (item : AFItem) (seen : List String)
    (t : String) (e : Entry) (h : anthropicFallbackStep now item seen = .emit t e) :
    e.title = t ∧ seen.contains t = false ∧ e.title = pyStrip e.title ∧
      10 ≤ e.title.length := by
  unfold anthropicFallbackStep at h
  cases hh : item.headingText with
  | none => rw [hh] at h; exact absurd h (by simp)
  | some raw =>
    rw [hh] at h
    dsimp only at h
    split at h
    · exact absurd h (by simp)
    · rename_i hcond
      simp only [Bool.or_eq_true, not_or, Bool.not_eq_true, decide_eq_true_eq] at hcond
      simp only [StepRes.emit.injEq] at h
      obtain ⟨ht, he⟩ := h
      subst ht
      subst he
      refine ⟨rfl, hcond.1, (pyStrip_idem raw).symm, ?_⟩
      show (10 : Nat) ≤ (pyStrip raw).length
      omega

theorem circuitsStep_emit (url : String) (now : Date) (p : CPaper) (seen : List String)
    (t : String) (e : Entry) (h : circuitsStep url now p seen = .emit t e) :
    e.title = t ∧ seen.contains t = false ∧ e.title = pyStrip e.title ∧
      15 ≤ e.title.length ∧
      circuitsClamp (circuitsDate1 (circuitsDate0 p now) now) now = some e.published := by
  unfold circuitsStep at h
  cases hh : p.titleText with
  | none => rw [hh] at h; exact absurd h (by simp)
  | some raw =>
    rw [hh] at h
    dsimp only at h
    split at h
    · exact absurd h (by simp)
    · rename_i hseen
      split at h
      · exact absurd h (by simp)
      · rename_i hcond
        simp only [Bool.not_eq_true] at hseen
        simp only [Bool.or_eq_true, not_or, Bool.not_eq_true, decide_eq_true_eq] at hcond
        cases hcl : circuitsClamp (circuitsDate1 (circuitsDate0 p now) now) now with
        | none => rw [hcl] at h; exact absurd h (by simp)
        | some pub =>
          rw [hcl] at h
          dsimp only at h
          simp only [StepRes.emit.injEq] at h
          obtain ⟨ht, he⟩ := h
          subst ht
          subst he
          refine ⟨rfl, hseen, (pyStrip_idem raw).symm, ?_, ?_⟩
          · show (15 : Nat) ≤ (pyStrip raw).length
            omega
          · rfl

theorem openaiStep_emit (now : Date) (item : OItem) (seen : List String)
    (t : String) (e : Entry) (h : openaiStep now item seen = .emit t e) :
    e.title = t ∧ seen.contains t = false ∧ e.title = pyStrip e.title ∧
      15 ≤ e.title.length := by
  unfold openaiStep at h
  have hgen : ∀ (raw : String),
      (if seen.contains (pyStrip raw) || decide ((pyStrip raw).length < 15) then .skip
        else StepRes.emit (pyStrip raw)
          { title := pyStrip raw,
            url := if (match item.linkHref with | some h2 => h2 | none => "") = "" then ""
              else urljoin "https://openai.com" (match item.linkHref with | some h2 => h2 | none => ""),
            published := openaiDate item.timeElem now,
            abstract := match item.abstractText with | some a => pyStrip a | none => "",
            authors := "OpenAI", source := "openai_publications" }) = .emit t e →
      e.title = t ∧ seen.contains t = false ∧ e.title = pyStrip e.title ∧
        15 ≤ e.title.length := by
    intro raw hr
    split at hr
    · exact absurd hr (by simp)
    · rename_i hcond
      simp only [Bool.or_eq_true, not_or, Bool.not_eq_true, decide_eq_true_eq] at hcond
      simp only [StepRes.emit.injEq] at hr
      obtain ⟨ht, he⟩ := hr
      subst ht
      subst he
      refine ⟨rfl, hcond.1, (pyStrip_idem raw).symm, ?_⟩
      show (15 : Nat) ≤ (pyStrip raw).length
      omega
  cases h1 : item.titleLinkText with
  | some raw =>
    rw [h1] at h
    dsimp only at h
    exact hgen raw h
  | none =>
    rw [h1] at h
    cases h2 : item.headingText with
    | none => rw [h2] at h; exact absurd h (by simp)
    | some raw =>
      rw [h2] at h
      dsimp only at h
      exact hgen raw h

theorem deepmindStep_emit (now : Date) (item : DItem) (seen : List String)
    (t : String) (e : Entry) (h : deepmindStep now item seen = .emit t e) :
    e.title = t ∧ seen.contains t = false ∧ e.title = pyStrip e.title ∧
      15 ≤ e.title.length ∧
      deepmindClamp (deepmindDate item.timeElem now) now = some e.published := by
  unfold deepmindStep at h
  cases hh : item.titleLinkText with
  | none => rw [hh] at h; exact absurd h (by simp)
  | some raw =>
    rw [hh] at h
    dsimp only at h
    split at h
    · exact absurd h (by simp)
    · rename_i hcond
      simp only [Bool.or_eq_true, not_or, Bool.not_eq_true, decide_eq_true_eq] at hcond
      cases hcl : deepmindClamp (deepmindDate item.timeElem now) now with
      | none => rw [hcl] at h; exact absurd h (by simp)
      | some pub =>
        rw [hcl] at h
        dsimp only at h
        simp only [StepRes.emit.injEq] at h
        obtain ⟨ht, he⟩ := h
        subst ht
        subst he
        refine ⟨rfl, hcond.1, (pyStrip_idem raw).symm, ?_, ?_⟩
        · show (15 : Nat) ≤ (pyStrip raw).length
          omega
        · rfl

theorem deepmindFallbackStep_emit (now : Date) (item : DFItem) (seen : List String)
    (t : String) (e : Entry) (h : deepmindFallbackStep now item seen = .emit t e) :
    e.title = t ∧ seen.contains t = false ∧ e.title = pyStrip e.title ∧
      15 ≤ e.title.length := by
  unfold deepmindFallbackStep at h
  cases hh : item.headingText with
  | none => rw [hh] at h; exact absurd h (by simp)
  | some raw =>
    rw [hh] at h
    dsimp only at h
    split at h
    · exact absurd h (by simp)
    · rename_i hcond
      simp only [Bool.or_eq_true, not_or, Bool.not_eq_true, decide_eq_true_eq] at hcond
      simp only [StepRes.emit.injEq] at h
      obtain ⟨ht, he⟩ := h
      subst ht
      subst he
      refine ⟨rfl, hcond.1, (pyStrip_idem raw).symm, ?_⟩
      show (15 : Nat) ≤ (pyStrip raw).length
      omega

theorem tierLoop_titles (step : α → List String → StepRes)
    (hstep : ∀ x seen t e, step x seen = .emit t e →
      e.title = t ∧ seen.contains t = false) :
    ∀ (xs : List α) (seen : List String),
      ((tierLoop step xs seen).1.map (fun e => e.title)).Nodup ∧
        ∀ e ∈ (tierLoop step xs seen).1, seen.contains e.title = false := by
  intro xs
  induction xs with
  | nil => intro seen; simp [tierLoop]
  | cons x rest ih =>
    intro seen
    rw [tierLoop]
    cases hs : step x seen with
    | skip => exact ih seen
    | halt => simp
    | emit t e2 =>
      obtain ⟨hte, hnotseen⟩ := hstep x seen t e2 hs
      obtain ⟨ihnodup, ihseen⟩ := ih (t :: seen)
      constructor
      · simp only [List.map_cons, List.nodup_cons]
        refine ⟨?_, ihnodup⟩
        intro hmem
        simp only [List.mem_map] at hmem
        obtain ⟨e3, he3, hteq⟩ := hmem
        have := ihseen e3 he3
        rw [List.contains_cons] at this
        simp only [Bool.or_eq_false_iff] at this
        have hne := this.1
        rw [hteq, hte] at hne
        simp at hne
      · intro e he
        simp only [List.mem_cons] at he
        cases he with
        | inl h => rw [h, hte]; exact hnotseen
        | inr h =>
          have := ihseen e h
          rw [List.contains_cons] at this
          simp only [Bool.or_eq_false_iff] at this
          exact this.2


theorem biorxivAppend_ge (maxPapers : Nat) :
    ∀ (l : List BiorxivRaw) (acc : List Entry),
      acc.length ≤ (biorxivAppend maxPapers acc l).length := by
  intro l
  induction l with
  | nil => intro acc; simp [biorxivAppend]
  | cons p ps ih =>
    intro acc
    simp only [biorxivAppend]
    split
    · simp
    · exact Nat.le_trans (by simp) (ih (acc ++ [biorxiv_format_paper p]))

theorem biorxivAppend_gt (maxPapers : Nat) (acc : List Entry)
    (l : List BiorxivRaw) (h : l ≠ []) :
    acc.length < (biorxivAppend maxPapers acc l).length := by
  cases l with
  | nil => exact absurd rfl h
  | cons p ps =>
    simp only [biorxivAppend]
    split
    · simp
    · exact Nat.lt_of_lt_of_le (by simp) (biorxivAppend_ge maxPapers ps _)

theorem biorxivAppend_le (maxPapers : Nat) :
    ∀ (l : List BiorxivRaw) (acc : List Entry), acc.length < maxPapers →
      (biorxivAppend maxPapers acc l).length ≤ maxPapers := by
  intro l
  induction l with
  | nil => intro acc h; simp [biorxivAppend]; omega
  | cons p ps ih =>
    intro acc h
    simp only [biorxivAppend]
    split
    · simp
      omega
    · rename_i hgt
      simp only [List.length_append, List.length_singleton] at hgt
      exact ih (acc ++ [biorxiv_format_paper p]) (by simp; omega)

theorem fetchGo_length_le (api : BiorxivEnv) (s e : String) (maxPapers : Nat) :
    ∀ (fuel cursor : Nat) (papers : List Entry), maxPapers - papers.length ≤ fuel →
      papers.length ≤ maxPapers →
      (fetchGo api s e maxPapers cursor papers).length ≤ maxPapers := by
  intro fuel
  induction fuel with
  | zero =>
    intro cursor papers hf hp
    rw [fetchGo.eq_def]
    rw [dif_neg (by omega)]
    exact hp
  | succ n ih =>
    intro cursor papers hf hp
    rw [fetchGo.eq_def]
    by_cases hlt : papers.length < maxPapers
    · rw [dif_pos hlt]
      cases hapi : api s e cursor with
      | none => exact hp
      | some coll =>
        dsimp only
        by_cases hc : coll = []
        · rw [dif_pos hc]
          exact hp
        · rw [dif_neg hc]
          have hgrow := biorxivAppend_gt maxPapers papers coll hc
          have hle := biorxivAppend_le maxPapers coll papers hlt
          exact ih _ _ (by omega) hle
    · rw [dif_neg hlt]
      exact hp

theorem fetch_length_le (api : BiorxivEnv) (s e : String) (maxPapers : Nat) :
    (fetch_biorxiv_papers api s e maxPapers).length ≤ maxPapers := by
  unfold fetch_biorxiv_papers
  exact fetchGo_length_le api s e maxPapers maxPapers 0 [] (by simp) (by simp)

theorem untitledApi_output :
    scrape_biorxiv untitledApi none { year := 2025, month := 1, day := 1 }
        { year := 2025, month := 1, day := 10 } 50
      = [biorxiv_format_paper
          { title := ""
            doi := "10.1101/2024.10.01.111111"
            date := "2024-10-01" }] := by
  unfold scrape_biorxiv fetch_biorxiv_papers
  dsimp only
  rw [fetchGo.eq_def]
  simp only [untitledApi, biorxivAppend]
  norm_num
  rw [fetchGo.eq_def]
  simp [untitledApi, biorxivAppend]

theorem scrape_non200 (env : Env) (url : String) (now : Date)
    (h : ¬(env.status url = 200)) :
    scrape_anthropic_research env url now = [] ∧
      scrape_circuits_research env url now = [] ∧
      scrape_openai_research env url now = [] ∧
      scrape_deepmind_research env url now = [] := by
  refine ⟨?_, ?_, ?_, ?_⟩
  · simp [scrape_anthropic_research, h]
  · simp [scrape_circuits_research, h]
  · simp [scrape_openai_research, h]
  · simp [scrape_deepmind_research, h]

theorem dispatchSource_known (env : Env) (now : Date) (u : String)
    (h : urlKnown (lowerStr u) = true) :
    ∃ entries, dispatchSource env now u = Except.ok entries := by
  unfold urlKnown at h
  unfold dispatchSource
  by_cases c1 : containsSub (lowerStr u) "transformer-circuits.pub" = true
  · rw [if_pos c1]; exact ⟨_, rfl⟩
  · rw [if_neg c1]
    by_cases c2 : containsSub (lowerStr u) "anthropic.com/" = true
    · rw [if_pos c2]; exact ⟨_, rfl⟩
    · rw [if_neg c2]
      by_cases c3 : containsSub (lowerStr u) "openai.com/research" = true
      · rw [if_pos c3]; exact ⟨_, rfl⟩
      · rw [if_neg c3]
        by_cases c4 : containsSub (lowerStr u) "deepmind" = true
        · rw [if_pos c4]; exact ⟨_, rfl⟩
        · simp only [Bool.not_eq_true] at c1 c2 c3 c4
          rw [c1, c2, c3, c4] at h
          simp at h

theorem scrapeBlogsGo_eq (env : Env) (keywords : Option Keywords)
    (start_date end_date now : Date) (enableKeywords : Bool) :
    ∀ (cfg : List BlogSource) (acc : List Entry),
      (∀ b ∈ cfg, sourceOk b = true) →
      scrapeBlogsGo env keywords start_date end_date now enableKeywords cfg acc
        = Except.ok (acc ++
            cfg.flatMap (sourceContrib env keywords start_date end_date now enableKeywords)) := by
  intro cfg
  induction cfg with
  | nil =>
    intro acc h
    simp [scrapeBlogsGo]
  | cons s rest ih =>
    intro acc hall
    have hs : sourceOk s = true := hall s (by simp)
    have hrest : ∀ b ∈ rest, sourceOk b = true := fun b hb => hall b (by simp [hb])
    rw [scrapeBlogsGo]
    cases hu : s.url with
    | none =>
      rw [ih acc hrest]
      have hcontrib :
          sourceContrib env keywords start_date end_date now enableKeywords s = [] := by
        simp [sourceContrib, hu]
      rw [List.flatMap_cons, hcontrib]
      simp
    | some u =>
      dsimp only
      by_cases hue : u = ""
      · rw [if_pos hue]
        rw [ih acc hrest]
        have hcontrib :
            sourceContrib env keywords start_date end_date now enableKeywords s = [] := by
          simp [sourceContrib, hu, hue]
        rw [List.flatMap_cons, hcontrib]
        simp
      · rw [if_neg hue]
        have hknown : urlKnown (lowerStr u) = true := by
          unfold sourceOk at hs
          rw [hu] at hs
          simpa [hue] using hs
        obtain ⟨entries, hd⟩ := dispatchSource_known env now u hknown
        rw [hd]
        dsimp only
        rw [ih _ hrest]
        have hcontrib :
            sourceContrib env keywords start_date end_date now enableKeywords s
              = applyFilters entries keywords enableKeywords start_date end_date := by
          unfold sourceContrib
          rw [hu]
          dsimp only
          rw [if_neg hue, hd]
        rw [List.flatMap_cons, hcontrib]
        simp


theorem applyFilters_nil (keywords : Option Keywords) (enableKeywords : Bool)
    (st en : Date) : applyFilters [] keywords enableKeywords st en = [] := by
  unfold applyFilters
  cases keywords <;> simp


/-! Claim theorems. -/

/-- C1 (code bug): a configured source whose URL matches none of the known
substrings makes the dispatch raise ValueError, but the top-level handler
of scrape_blogs catches that very exception and answers the empty list,
so the caller sees an empty result instead of a configuration error. -/
theorem C1_unknown_source_error_swallowed :
    scrape_blogsCore emptyEnv unknownCfg none { year := 2025, month := 1, day := 1 }
        { year := 2025, month := 1, day := 31 } { year := 2025, month := 1, day := 31 } 50 false
      = Except.error "Unknown blog source: https://example.com/blog" ∧
    scrape_blogs emptyEnv unknownCfg none { year := 2025, month := 1, day := 1 }
        { year := 2025, month := 1, day := 31 } { year := 2025, month := 1, day := 31 } 50 false
      = [] := by
  constructor
  · rfl
  · rfl

/-- C2 (code bug): on a published string that no rule can parse (no
month-year pattern, none of the four concrete formats, no extractable
date-shaped substring), is_recent_publication returns false and the
record is excluded, although the accompanying comments and the spec call
for inclusion by default. -/
theorem C2_unparseable_date_excluded :
    is_recent_publication "sometime last week" { year := 2025, month := 1, day := 1 }
      { year := 2025, month := 12, day := 31 } = false := by
  decide

/-- C4 counterexample: the bioRxiv client emits the API title verbatim,
so a record with an empty title reaches the output, refuting the claim
that every source client trims titles and drops untitled items. -/
theorem C4_counterexample_untitled_record :
    ∃ e ∈ scrape_biorxiv untitledApi none { year := 2025, month := 1, day := 1 }
        { year := 2025, month := 1, day := 10 } 50, e.title = "" := by
  rw [untitledApi_output]
  exact ⟨_, List.mem_singleton.mpr rfl, rfl⟩

/-- C4 amended: for every record emitted by one of the four
document-scraping clients the title is whitespace-trimmed and never
empty; the structured bioRxiv client passes the API title through
verbatim, possibly empty. -/
theorem C4_amended_doc_scraper_titles (env : Env) (url : String) (now : Date) (e : Entry)
    (hmem : e ∈ scrape_anthropic_research env url now ∨
      e ∈ scrape_circuits_research env url now ∨
      e ∈ scrape_openai_research env url now ∨
      e ∈ scrape_deepmind_research env url now) :
    e.title = pyStrip e.title ∧ e.title ≠ "" := by
  have hA : ∀ x seen t e2, anthropicStep now x seen = .emit t e2 →
      e2.title = pyStrip e2.title ∧ e2.title ≠ "" := by
    intro x seen t e2 h
    obtain ⟨_, _, htr, hlen⟩ := anthropicStep_emit now x seen t e2 h
    exact ⟨htr, titleNonempty e2 hlen⟩
  have hAF : ∀ x seen t e2, anthropicFallbackStep now x seen = .emit t e2 →
      e2.title = pyStrip e2.title ∧ e2.title ≠ "" := by
    intro x seen t e2 h
    obtain ⟨_, _, htr, hlen⟩ := anthropicFallbackStep_emit now x seen t e2 h
    exact ⟨htr, titleNonempty e2 hlen⟩
  have hC : ∀ x seen t e2, circuitsStep url now x seen = .emit t e2 →
      e2.title = pyStrip e2.title ∧ e2.title ≠ "" := by
    intro x seen t e2 h
    obtain ⟨_, _, htr, hlen, _⟩ := circuitsStep_emit url now x seen t e2 h
    exact ⟨htr, titleNonempty e2 (by omega)⟩
  have hO : ∀ x seen t e2, openaiStep now x seen = .emit t e2 →
      e2.title = pyStrip e2.title ∧ e2.title ≠ "" := by
    intro x seen t e2 h
    obtain ⟨_, _, htr, hlen⟩ := openaiStep_emit now x seen t e2 h
    exact ⟨htr, titleNonempty e2 (by omega)⟩
  have hD : ∀ x seen t e2, deepmindStep now x seen = .emit t e2 →
      e2.title = pyStrip e2.title ∧ e2.title ≠ "" := by
    intro x seen t e2 h
    obtain ⟨_, _, htr, hlen, _⟩ := deepmindStep_emit now x seen t e2 h
    exact ⟨htr, titleNonempty e2 (by omega)⟩
  have hDF : ∀ x seen t e2, deepmindFallbackStep now x seen = .emit t e2 →
      e2.title = pyStrip e2.title ∧ e2.title ≠ "" := by
    intro x seen t e2 h
    obtain ⟨_, _, htr, hlen⟩ := deepmindFallbackStep_emit now x seen t e2 h
    exact ⟨htr, titleNonempty e2 (by omega)⟩
  rcases hmem with hm | hm | hm | hm
  · rw [scrape_anthropic_research] at hm
    split at hm
    · simp at hm
    · dsimp only at hm
      split at hm
      · exact tierLoop_emit_prop _ _ hAF _ _ e hm
      · exact tierLoop_emit_prop _ _ hA _ _ e hm
  · rw [scrape_circuits_research] at hm
    split at hm
    · simp at hm
    · exact tierLoop_emit_prop _ _ hC _ _ e hm
  · rw [scrape_openai_research] at hm
    split at hm
    · simp at hm
    · exact tierLoop_emit_prop _ _ hO _ _ e hm
  · rw [scrape_deepmind_research] at hm
    split at hm
    · simp at hm
    · dsimp only at hm
      split at hm
      · exact tierLoop_emit_prop _ _ hDF _ _ e hm
      · exact tierLoop_emit_prop _ _ hD _ _ e hm

/-- Witness for the amended C4 theorem at a concrete page. -/
theorem C4_amended_witness :
    clampedEntry.title = pyStrip clampedEntry.title ∧ clampedEntry.title ≠ "" :=
  C4_amended_doc_scraper_titles futureCircuitsEnv "https://transformer-circuits.pub/"
    { year := 2025, month := 10, day := 12 } clampedEntry (Or.inr (Or.inl (by decide)))

/-- C5: the structured-API client keeps an item exactly when its
publication date lies in the inclusive window, and on the scenario item
published 2025-01-05 it is kept for the window from 2025-01-01 to
2025-01-10 and dropped for the window from 2025-01-06 to 2025-01-10. -/
theorem C5_arxiv_inclusive_window :
    (∀ (start_date end_date : Date) (pre post : List ArxivPaper) (p : ArxivPaper),
        scrape_arxiv (pre ++ p :: post) start_date end_date =
          scrape_arxiv pre start_date end_date ++
            (if dateLeb start_date p.published && dateLeb p.published end_date then
              [arxiv_format_paper p] else []) ++
            scrape_arxiv post start_date end_date) ∧
    scrape_arxiv [scenarioPaper]
        { year := 2025, month := 1, day := 1 } { year := 2025, month := 1, day := 10 }
      = [arxiv_format_paper scenarioPaper] ∧
    scrape_arxiv [scenarioPaper]
        { year := 2025, month := 1, day := 6 } { year := 2025, month := 1, day := 10 }
      = [] := by
  refine ⟨?_, by rfl, by rfl⟩
  intro start_date end_date pre post p
  unfold scrape_arxiv
  rw [List.filter_append, List.filter_cons]
  split
  · simp
  · simp

/-- C8: within one page fetch of any document-scraping client the record
titles are pairwise distinct by exact trimmed text, including across the
primary and fallback extraction tiers of that call. -/
theorem C8_titles_pairwise_distinct (env : Env) (url : String) (now : Date) :
    ((scrape_anthropic_research env url now).map (fun e => e.title)).Nodup ∧
    ((scrape_circuits_research env url now).map (fun e => e.title)).Nodup ∧
    ((scrape_openai_research env url now).map (fun e => e.title)).Nodup ∧
    ((scrape_deepmind_research env url now).map (fun e => e.title)).Nodup := by
  have hA : ∀ x seen t e, anthropicStep now x seen = .emit t e →
      e.title = t ∧ seen.contains t = false := by
    intro x seen t e h
    obtain ⟨h1, h2, _, _⟩ := anthropicStep_emit now x seen t e h
    exact ⟨h1, h2⟩
  have hAF : ∀ x seen t e, anthropicFallbackStep now x seen = .emit t e →
      e.title = t ∧ seen.contains t = false := by
    intro x seen t e h
    obtain ⟨h1, h2, _, _⟩ := anthropicFallbackStep_emit now x seen t e h
    exact ⟨h1, h2⟩
  have hC : ∀ x seen t e, circuitsStep url now x seen = .emit t e →
      e.title = t ∧ seen.contains t = false := by
    intro x seen t e h
    obtain ⟨h1, h2, _, _, _⟩ := circuitsStep_emit url now x seen t e h
    exact ⟨h1, h2⟩
  have hO : ∀ x seen t e, openaiStep now x seen = .emit t e →
      e.title = t ∧ seen.contains t = false := by
    intro x seen t e h
    obtain ⟨h1, h2, _, _⟩ := openaiStep_emit now x seen t e h
    exact ⟨h1, h2⟩
  have hD : ∀ x seen t e, deepmindStep now x seen = .emit t e →
      e.title = t ∧ seen.contains t = false := by
    intro x seen t e h
    obtain ⟨h1, h2, _, _, _⟩ := deepmindStep_emit now x seen t e h
    exact ⟨h1, h2⟩
  have hDF : ∀ x seen t e, deepmindFallbackStep now x seen = .emit t e →
      e.title = t ∧ seen.contains t = false := by
    intro x seen t e h
    obtain ⟨h1, h2, _, _⟩ := deepmindFallbackStep_emit now x seen t e h
    exact ⟨h1, h2⟩
  refine ⟨?_, ?_, ?_, ?_⟩
  · rw [scrape_anthropic_research]
    split
    · simp
    · dsimp only
      split
      · exact (tierLoop_titles _ hAF _ _).1
      · exact (tierLoop_titles _ hA _ _).1
  · rw [scrape_circuits_research]
    split
    · simp
    · exact (tierLoop_titles _ hC _ _).1
  · rw [scrape_openai_research]
    split
    · simp
    · exact (tierLoop_titles _ hO _ _).1
  · rw [scrape_deepmind_research]
    split
    · simp
    · dsimp only
      split
      · exact (tierLoop_titles _ hDF _ _).1
      · exact (tierLoop_titles _ hD _ _).1


/-- C3 counterexample: the OpenAI client emits a record whose published
field parses to 2099-01-01, strictly after the harvest date 2025-10-12;
no clamp is applied on that path, refuting the claim for every source
client. -/
theorem C3_counterexample_future_date :
    (scrape_openai_research futureEnv "https://openai.com/research/index"
        { year := 2025, month := 10, day := 12 }).map (fun e => e.published)
      = ["2099-01-01"] ∧
    runStrptime fmtISO "2099-01-01" = some { year := 2099, month := 1, day := 1 } ∧
    dateLtb { year := 2025, month := 10, day := 12 } { year := 2099, month := 1, day := 1 }
      = true := by
  decide

/-- C3 amended: the future-date clamp holds for the Transformer Circuits
client and for the primary tier of the DeepMind client: every emitted
record whose published field parses as an ISO date carries a date no
later than the harvest date.  The Anthropic and OpenAI clients and the
DeepMind fallback tier apply no clamp. -/
theorem C3_amended_future_clamp (env : Env) (url : String) (now : Date)
    (hnow : validDate now = true) :
    (∀ e ∈ scrape_circuits_research env url now,
        ∀ d, runStrptime fmtISO e.published = some d → dateLeb d now = true) ∧
    (∀ e ∈ (tierLoop (deepmindStep now) (env.deepmindPage url).items []).1,
        ∀ d, runStrptime fmtISO e.published = some d → dateLeb d now = true) := by
  have hC : ∀ x seen t e2, circuitsStep url now x seen = .emit t e2 →
      (∀ d, runStrptime fmtISO e2.published = some d → dateLeb d now = true) := by
    intro x seen t e2 h
    obtain ⟨_, _, _, _, hcl⟩ := circuitsStep_emit url now x seen t e2 h
    exact circuitsClamp_sound _ now hnow _ hcl
  have hD : ∀ x seen t e2, deepmindStep now x seen = .emit t e2 →
      (∀ d, runStrptime fmtISO e2.published = some d → dateLeb d now = true) := by
    intro x seen t e2 h
    obtain ⟨_, _, _, _, hcl⟩ := deepmindStep_emit now x seen t e2 h
    exact deepmindClamp_sound _ now hnow _ hcl
  constructor
  · intro e hm
    rw [scrape_circuits_research] at hm
    split at hm
    · simp at hm
    · exact tierLoop_emit_prop _ _ hC _ _ e hm
  · intro e hm
    exact tierLoop_emit_prop _ _ hD _ _ e hm

/-- Witness for the amended C3 theorem: on a circuits page dated
2030-01-05 harvested on 2025-10-12, the emitted record is clamped and its
parsed date satisfies the bound. -/
theorem C3_amended_witness :
    dateLeb { year := 2025, month := 10, day := 12 } { year := 2025, month := 10, day := 12 }
      = true :=
  (C3_amended_future_clamp futureCircuitsEnv "https://transformer-circuits.pub/"
      { year := 2025, month := 10, day := 12 } (by decide)).1
    clampedEntry (by decide) { year := 2025, month := 10, day := 12 } (by decide)


/-- C6: for every published string classified as month-year (either
pattern, with a resolvable month), the recency filter never builds a
day-level date: it accepts the entry exactly when its month is the
previous, current or next calendar month of the end date, or lies
lexicographically between the start month and the end month
inclusively. -/
theorem C6_month_year_classification (published : String) (y m : Nat) (st en : Date)
    (hmatch : monthYearOf published = some (y, m)) (hen : validDate en = true) :
    (is_recent_publication published st en = true ↔
      ((y, m) = prevYM en ∨ (y, m) = (en.year, en.month) ∨ (y, m) = nextYM en ∨
        (ymLeb (st.year, st.month) (y, m) = true ∧
          ymLeb (y, m) (en.year, en.month) = true))) := by
  have hb : 1 ≤ en.month ∧ en.month ≤ 12 := by
    simp only [validDate, Bool.and_eq_true, decide_eq_true_eq] at hen
    exact ⟨hen.1.1.1.2, hen.1.1.2⟩
  have hred : is_recent_publication published st en = monthAccept y m st en := by
    unfold monthYearOf at hmatch
    unfold is_recent_publication
    cases hm1 : matchMonthYear1 published with
    | some p =>
      obtain ⟨name, yy⟩ := p
      rw [hm1] at hmatch
      dsimp only at hmatch
      by_cases hy0 : yy = 0
      · rw [if_pos hy0] at hmatch
        exact Option.noConfusion hmatch
      · rw [if_neg hy0] at hmatch
        cases hmn : monthNumOfName name with
        | none =>
          rw [hmn] at hmatch
          exact Option.noConfusion hmatch
        | some mm =>
          rw [hmn] at hmatch
          simp only [Option.map_some', Option.some.injEq, Prod.mk.injEq] at hmatch
          obtain ⟨hyy, hmm2⟩ := hmatch
          have hne : published ≠ "" := by
            intro h0
            rw [h0] at hm1
            rw [show matchMonthYear1 "" = none from rfl] at hm1
            exact Option.noConfusion hm1
          rw [if_neg hne]
          dsimp only
          rw [if_neg hy0, hmn, hyy, hmm2]
    | none =>
      rw [hm1] at hmatch
      have hm2 : matchMonthYear2 published = some (y, m) := hmatch
      have hne : published ≠ "" := by
        intro h0
        rw [h0] at hm2
        rw [show matchMonthYear2 "" = none from rfl] at hm2
        exact Option.noConfusion hm2
      rw [if_neg hne, hm2]
  rw [hred]
  exact monthAccept_iff y m st en hb.1 hb.2

/-- Witness for C6: the entry dated March 2025 is accepted for the window
ending 2025-03-20 because its month is the current month of the end
date. -/
theorem C6_witness :
    is_recent_publication "March 2025" { year := 2025, month := 2, day := 20 }
      { year := 2025, month := 3, day := 20 } = true :=
  (C6_month_year_classification "March 2025" 2025 3
      { year := 2025, month := 2, day := 20 } { year := 2025, month := 3, day := 20 }
      (by decide) (by decide)).mpr (Or.inr (Or.inl rfl))


set_option maxRecDepth 8000 in
/-- C7 counterexample: the circuits client normalizes the month-year date
March 2025 to the day-level string 2025-03-31 before the filter runs, so
for the window ending 2025-03-20 the record is rejected by the recency
filter when the harvest runs after the window (here on 2025-04-10),
refuting the acceptance part of the claim. -/
theorem C7_counterexample_rejected_after_window :
    (scrape_circuits_research marchEnv "https://transformer-circuits.pub/"
        { year := 2025, month := 4, day := 10 }).map (fun e => e.published)
      = ["2025-03-31"] ∧
    is_recent_publication "2025-03-31" { year := 2025, month := 2, day := 20 }
      { year := 2025, month := 3, day := 20 } = false := by
  decide

set_option maxRecDepth 8000 in
/-- C7 amended: the circuits client normalizes March 2025 to the last
calendar day 2025-03-31, clamped to the harvest date when that day is in
the future; the resulting record is accepted by the recency filter for
the window ending 2025-03-20 provided the harvest date lies inside the
window, and not in general. -/
theorem C7_amended_month_year_normalization (now st : Date) (hnow : validDate now = true) :
    scrape_circuits_research marchEnv "https://transformer-circuits.pub/" now
      = [{ title := "On the Biology of a Large Language Model"
           url := ""
           published := isoOfDate (if dateLtb now { year := 2025, month := 3, day := 31 }
             then now else { year := 2025, month := 3, day := 31 })
           abstract := ""
           authors := "Anthropic Transformer Circuits Team"
           source := "transformer_circuits" }] ∧
    (dateLeb st now = true → dateLeb now { year := 2025, month := 3, day := 20 } = true →
      is_recent_publication
        (isoOfDate (if dateLtb now { year := 2025, month := 3, day := 31 }
          then now else { year := 2025, month := 3, day := 31 }))
        st { year := 2025, month := 3, day := 20 } = true) := by
  have hd1 : circuitsDate1 (circuitsDate0 marchPaper now) now
      = if dateLtb now { year := 2025, month := 3, day := 1 } then isoOfDate now
        else "2025-03-31" := rfl
  have hpub : circuitsClamp (circuitsDate1 (circuitsDate0 marchPaper now) now) now
      = some (isoOfDate (if dateLtb now { year := 2025, month := 3, day := 31 }
          then now else { year := 2025, month := 3, day := 31 })) := by
    rw [hd1]
    by_cases hA : dateLtb now { year := 2025, month := 3, day := 1 } = true
    · rw [if_pos hA]
      have h31 : dateLtb now { year := 2025, month := 3, day := 31 } = true :=
        dateLtb_leb_trans _ _ _ hA (by decide)
      rw [if_pos h31]
      unfold circuitsClamp
      rw [if_neg (isoOfDate_ne_empty now)]
      rw [iso_roundtrip now hnow]
      dsimp only
      rw [dateLtb_irrefl]
      simp
    · rw [if_neg hA]
      unfold circuitsClamp
      rw [if_neg (by decide : ¬("2025-03-31" = ""))]
      rw [show runStrptime fmtISO "2025-03-31"
        = some { year := 2025, month := 3, day := 31 } from by decide]
      dsimp only
      by_cases hB : dateLtb now { year := 2025, month := 3, day := 31 } = true
      · rw [if_pos hB, if_pos hB]
      · rw [if_neg hB, if_neg hB]
        rfl
  have hstep : circuitsStep "https://transformer-circuits.pub/" now marchPaper []
      = .emit "On the Biology of a Large Language Model"
        { title := "On the Biology of a Large Language Model"
          url := ""
          published := isoOfDate (if dateLtb now { year := 2025, month := 3, day := 31 }
            then now else { year := 2025, month := 3, day := 31 })
          abstract := ""
          authors := "Anthropic Transformer Circuits Team"
          source := "transformer_circuits" } := by
    have h0 : circuitsStep "https://transformer-circuits.pub/" now marchPaper []
        = match circuitsClamp (circuitsDate1 (circuitsDate0 marchPaper now) now) now with
          | none => StepRes.halt
          | some published =>
            StepRes.emit "On the Biology of a Large Language Model"
              { title := "On the Biology of a Large Language Model"
                url := ""
                published := published
                abstract := ""
                authors := "Anthropic Transformer Circuits Team"
                source := "transformer_circuits" } := rfl
    rw [h0, hpub]
  constructor
  · rw [scrape_circuits_research]
    rw [if_neg (by decide :
      ¬((!(marchEnv.status "https://transformer-circuits.pub/" = 200)) = true))]
    rw [show marchEnv.circuitsPage "https://transformer-circuits.pub/"
      = [marchPaper] from rfl]
    rw [tierLoop, hstep]
    rfl
  · intro hst hen
    have hB : dateLtb now { year := 2025, month := 3, day := 31 } = true :=
      dateLeb_ltb_trans _ _ _ hen (by decide)
    rw [if_pos hB]
    rw [is_recent_iso now hnow]
    rw [hst, hen]
    rfl

set_option maxRecDepth 8000 in
/-- Witness for the amended C7 theorem: harvesting on 2025-03-20, the day
the window ends, yields a record clamped to 2025-03-20 which the recency
filter accepts. -/
theorem C7_amended_witness :
    scrape_circuits_research marchEnv "https://transformer-circuits.pub/"
        { year := 2025, month := 3, day := 20 }
      = [{ title := "On the Biology of a Large Language Model"
           url := ""
           published := isoOfDate (if dateLtb { year := 2025, month := 3, day := 20 }
               { year := 2025, month := 3, day := 31 }
             then { year := 2025, month := 3, day := 20 }
             else { year := 2025, month := 3, day := 31 })
           abstract := ""
           authors := "Anthropic Transformer Circuits Team"
           source := "transformer_circuits" }] ∧
    (dateLeb { year := 2025, month := 2, day := 20 } { year := 2025, month := 3, day := 20 }
        = true →
      dateLeb { year := 2025, month := 3, day := 20 } { year := 2025, month := 3, day := 20 }
        = true →
      is_recent_publication
        (isoOfDate (if dateLtb { year := 2025, month := 3, day := 20 }
            { year := 2025, month := 3, day := 31 }
          then { year := 2025, month := 3, day := 20 }
          else { year := 2025, month := 3, day := 31 }))
        { year := 2025, month := 2, day := 20 } { year := 2025, month := 3, day := 20 }
        = true) :=
  C7_amended_month_year_normalization { year := 2025, month := 3, day := 20 }
    { year := 2025, month := 2, day := 20 } (by decide)


/-- C9: a source answered with HTTP 500 contributes the empty list and
the orchestrator continues: the final batch equals the concatenation of
the contributions of the surrounding sources, truncated to the cap. -/
theorem C9_non200_source_isolated (env : Env) (keywords : Option Keywords)
    (start_date end_date now : Date) (maxEntries : Nat) (enableKeywords : Bool)
    (pre post : List BlogSource) (s : BlogSource) (u : String)
    (hall : ∀ b ∈ pre ++ s :: post, sourceOk b = true)
    (hu : s.url = some u) (hne : u ≠ "")
    (hstatus : env.status (lowerStr u) = 500) :
    scrape_blogs env (pre ++ s :: post) keywords start_date end_date now maxEntries
        enableKeywords
      = (pre.flatMap (sourceContrib env keywords start_date end_date now enableKeywords) ++
          post.flatMap (sourceContrib env keywords start_date end_date now enableKeywords)).take
          maxEntries ∧
    sourceContrib env keywords start_date end_date now enableKeywords s = [] := by
  have h500 : ¬(env.status (lowerStr u) = 200) := by
    rw [hstatus]
    omega
  obtain ⟨hA, hC, hO, hD⟩ := scrape_non200 env (lowerStr u) now h500
  have hcontrib : sourceContrib env keywords start_date end_date now enableKeywords s = [] := by
    unfold sourceContrib
    rw [hu]
    dsimp only
    rw [if_neg hne]
    unfold dispatchSource
    by_cases c1 : containsSub (lowerStr u) "transformer-circuits.pub" = true
    · rw [if_pos c1]
      dsimp only
      rw [hC]
      exact applyFilters_nil keywords enableKeywords start_date end_date
    · rw [if_neg c1]
      by_cases c2 : containsSub (lowerStr u) "anthropic.com/" = true
      · rw [if_pos c2]
        dsimp only
        rw [hA]
        exact applyFilters_nil keywords enableKeywords start_date end_date
      · rw [if_neg c2]
        by_cases c3 : containsSub (lowerStr u) "openai.com/research" = true
        · rw [if_pos c3]
          dsimp only
          rw [hO]
          exact applyFilters_nil keywords enableKeywords start_date end_date
        · rw [if_neg c3]
          by_cases c4 : containsSub (lowerStr u) "deepmind" = true
          · rw [if_pos c4]
            dsimp only
            rw [hD]
            exact applyFilters_nil keywords enableKeywords start_date end_date
          · rw [if_neg c4]
  refine ⟨?_, hcontrib⟩
  unfold scrape_blogs scrape_blogsCore
  rw [if_neg (by simp : ¬(pre ++ s :: post = []))]
  rw [scrapeBlogsGo_eq env keywords start_date end_date now enableKeywords
    (pre ++ s :: post) [] hall]
  dsimp only
  rw [List.flatMap_append, List.flatMap_cons, hcontrib]
  simp

set_option maxRecDepth 8000 in
/-- Witness for C9: with the DeepMind source answering 500, the circuits
source still contributes to the batch. -/
theorem C9_witness :
    scrape_blogs failingDeepmindEnv ([] ++ dmSource :: [circSource]) none
        { year := 2025, month := 2, day := 20 } { year := 2025, month := 3, day := 20 }
        { year := 2025, month := 3, day := 20 } 50 false
      = (([] : List BlogSource).flatMap
          (sourceContrib failingDeepmindEnv none { year := 2025, month := 2, day := 20 }
            { year := 2025, month := 3, day := 20 } { year := 2025, month := 3, day := 20 }
            false) ++
         [circSource].flatMap
          (sourceContrib failingDeepmindEnv none { year := 2025, month := 2, day := 20 }
            { year := 2025, month := 3, day := 20 } { year := 2025, month := 3, day := 20 }
            false)).take 50 ∧
    sourceContrib failingDeepmindEnv none { year := 2025, month := 2, day := 20 }
        { year := 2025, month := 3, day := 20 } { year := 2025, month := 3, day := 20 }
        false dmSource
      = [] :=
  C9_non200_source_isolated failingDeepmindEnv none
    { year := 2025, month := 2, day := 20 } { year := 2025, month := 3, day := 20 }
    { year := 2025, month := 3, day := 20 } 50 false [] [circSource] dmSource
    "https://deepmind.google/research" (by decide) rfl (by decide) (by decide)

set_option maxRecDepth 8000 in
/-- C10: the bioRxiv client queries a window whose start is moved 90 days
earlier and applies no local publication-date re-filtering, so its output
can contain records published strictly before the requested start: the
output always equals the fetch over the widened window, the widened start
for 2025-01-01 is 2024-10-03, and a concrete API answer yields a record
dated 2024-10-01, before the start 2025-01-01. -/
theorem C10_biorxiv_widened_window :
    (∀ (api : BiorxivEnv) (keywords : Option Keywords) (start_date end_date : Date)
        (maxPapers : Nat),
        scrape_biorxiv api keywords start_date end_date maxPapers
          = fetch_biorxiv_papers api (isoOfDate (subDays 90 start_date))
              (isoOfDate end_date) maxPapers) ∧
    subDays 90 { year := 2025, month := 1, day := 1 } = { year := 2024, month := 10, day := 3 } ∧
    (∃ e ∈ scrape_biorxiv untitledApi none { year := 2025, month := 1, day := 1 }
        { year := 2025, month := 1, day := 10 } 50,
      runStrptime fmtISO e.published = some { year := 2024, month := 10, day := 1 } ∧
        dateLtb { year := 2024, month := 10, day := 1 } { year := 2025, month := 1, day := 1 }
          = true) := by
  refine ⟨?_, by decide, ?_⟩
  · intro api keywords start_date end_date maxPapers
    unfold scrape_biorxiv
    cases keywords with
    | none => rfl
    | some kw =>
      dsimp only
      rw [if_neg ?_]
      have := fetch_length_le api (isoOfDate (subDays 90 start_date)) (isoOfDate end_date)
        maxPapers
      omega
  · rw [untitledApi_output]
    exact ⟨_, List.mem_singleton.mpr rfl, by decide, by decide⟩

end Digest
